import Mathlib

/-!
# savereelify.com: page pool, result cache and fetch handlers

A shallow embedding of `src/server.js` and `src/post.js`.

* A JavaScript `Map` with string keys is `JsMap`: an insertion-ordered list of
  key/value pairs whose keys are pairwise distinct.
* `Date.now()` is an integer number of milliseconds, given as an input.
* The outcome of every external call (puppeteer, the resolver
  `instagram-url-direct`, axios) is an input of the function that makes the call.
* A thrown `Error` is a `JsError` (its `name` and `message`).
-/

namespace SaveReelify

/-! ## JavaScript `Map` -/

/-- A JavaScript `Map` keyed by strings: entries in insertion order, keys distinct. -/
structure JsMap (V : Type) where
  entries : List (String × V)
  nodupKeys : (entries.map Prod.fst).Nodup

namespace JsMap

variable {V : Type}

/-- The value `new Map()`. -/
def empty : JsMap V := ⟨[], List.nodup_nil⟩

/-- The property `map.size`. -/
def size (m : JsMap V) : Nat := m.entries.length

/-- The keys, in iteration order. -/
def keys (m : JsMap V) : List String := m.entries.map Prod.fst

/-- The method `map.get(k)`; `none` is `undefined`. -/
def get (m : JsMap V) (k : String) : Option V :=
  (m.entries.find? (fun e => decide (e.1 = k))).map Prod.snd

/-- The method `map.delete(k)`. -/
def delete (m : JsMap V) (k : String) : JsMap V :=
  ⟨m.entries.filter (fun e => decide (e.1 ≠ k)),
    (List.filter_sublist m.entries).map Prod.fst |>.nodup m.nodupKeys⟩

/-- The method `map.set(k, v)`: an existing key keeps its position, a new key goes last. -/
def set (m : JsMap V) (k : String) (v : V) : JsMap V :=
  if h : k ∈ m.entries.map Prod.fst then
    ⟨m.entries.map (fun e => if e.1 = k then (k, v) else e), by
      have hk : (m.entries.map (fun e => if e.1 = k then (k, v) else e)).map Prod.fst
          = m.entries.map Prod.fst := by
        rw [List.map_map]
        apply List.map_congr_left
        intro e _
        by_cases he : e.1 = k <;> simp [he]
      rw [hk]
      exact m.nodupKeys⟩
  else
    ⟨m.entries ++ [(k, v)], by
      rw [List.map_append, List.nodup_append]
      refine ⟨m.nodupKeys, by simp, ?_⟩
      intro a ha hb
      simp only [List.map_cons, List.map_nil, List.mem_singleton] at hb
      exact h (hb ▸ ha)⟩

/-- The method `map.clear()`. -/
def clear (_m : JsMap V) : JsMap V := empty

end JsMap

/-! ## Errors and payloads -/

/-- A thrown JavaScript `Error`. -/
structure JsError where
  name : String
  message : String
deriving DecidableEq, Repr

deriving instance DecidableEq for Except

/-- The value `new Error(message)`. -/
def mkError (message : String) : JsError := ⟨"Error", message⟩

/-- The object `responseData` built by the `/api/fetch-instagram` handler
(`server.js` lines 279-286); `downloadUrl = none` is `undefined`. -/
structure ReelData where
  success : Bool
  type : String
  title : String
  thumbnail : Option String
  downloadUrl : Option String
  mediaType : String
deriving DecidableEq, Repr

/-! ## Result cache (`server.js` lines 90-92, 254-257, 289-292, 411-419) -/

/-- The constant `CACHE_DURATION` (milliseconds): 600000, which is ten minutes; the comment
on the source line says `1 hour`. -/
def CACHE_DURATION : Int := 600000

/-- A value stored in `cache`: `{ timestamp, data }`. -/
structure CacheEntry where
  timestamp : Int
  data : ReelData
deriving DecidableEq, Repr

/-- The type of `cache`. -/
abbrev Cache := JsMap CacheEntry

/-- The cache check of the handler (lines 254-257): `some data` when the handler returns
`res.json(cachedData.data)`, `none` when it goes on. -/
def cacheLookup (cache : Cache) (url : String) (now : Int) : Option ReelData :=
  match cache.get url with
  | some cachedData =>
    if now - cachedData.timestamp < CACHE_DURATION then some cachedData.data else none
  | none => none

/-- The test of the cleanup loop (line 415) on one entry. -/
def sweepRemoves (now : Int) (value : CacheEntry) : Bool :=
  decide (now - value.timestamp > CACHE_DURATION)

/-- The body of the `setInterval` cache cleanup (lines 413-418), run at time `now`. -/
def sweep (now : Int) (cache : Cache) : Cache :=
  cache.entries.foldl
    (fun c kv => if now - kv.2.timestamp > CACHE_DURATION then c.delete kv.1 else c) cache

/-! ## Page pool (`server.js` lines 94-190) -/

/-- A value stored in `this.pages`: `{ page, inUse }`; the puppeteer page object is a handle. -/
structure PageEntry where
  page : Nat
  inUse : Bool
deriving DecidableEq, Repr

/-- The fields of a `BrowserManager`; `browser = none` is `null`. -/
structure BrowserManager where
  browser : Option Nat
  pages : JsMap PageEntry
  maxPages : Nat

/-- The constructor (lines 96-100). -/
def BrowserManager.new : BrowserManager := ⟨none, JsMap.empty, 5⟩

/-- What the outside world answers during one `getPage()` call. -/
structure PageEnv where
  /-- outcome of `puppeteer.launch(...)`, consulted only when `this.browser` is `null` -/
  launch : Except JsError Nat
  /-- outcome of `this.browser.newPage()` -/
  newPage : Except JsError Nat
  /-- outcome of `this.setupPage(page)` -/
  setupPage : Except JsError Unit
  /-- value of `Date.now()` at line 147 -/
  now : Int

/-- The value `{ page, id }` returned by `getPage()`. -/
structure Acquired where
  page : Nat
  id : String
deriving DecidableEq, Repr

/-- The method `initialize()` (lines 102-130). -/
def BrowserManager.initialize (bm : BrowserManager) (launch : Except JsError Nat) :
    Except JsError BrowserManager :=
  match bm.browser with
  | some _ => .ok bm
  | none =>
    match launch with
    | .ok b => .ok { bm with browser := some b }
    | .error e => .error e

/-- The method `getPage()` (lines 132-153): the manager afterwards and the value returned or
the error thrown. -/
def BrowserManager.getPage (bm : BrowserManager) (env : PageEnv) :
    BrowserManager × Except JsError Acquired :=
  match bm.initialize env.launch with
  | .error e => (bm, .error e)
  | .ok bm1 =>
    match bm1.pages.entries.find? (fun e => !e.2.inUse) with
    | some (id, page) =>
      ({ bm1 with pages := bm1.pages.set id { page with inUse := true } },
        .ok { page := page.page, id := id })
    | none =>
      if bm1.pages.size < bm1.maxPages then
        match env.newPage with
        | .error e => (bm1, .error e)
        | .ok page =>
          match env.setupPage with
          | .error e => (bm1, .error e)
          | .ok _ =>
            let id := toString env.now
            ({ bm1 with pages := bm1.pages.set id { page := page, inUse := true } },
              .ok { page := page, id := id })
      else (bm1, .error (mkError "No pages available"))

/-- The method `releasePage(id)` (lines 174-179). -/
def BrowserManager.releasePage (bm : BrowserManager) (id : String) : BrowserManager :=
  match bm.pages.get id with
  | some page => { bm with pages := bm.pages.set id { page with inUse := false } }
  | none => bm

/-- The method `cleanup()` (lines 181-187); `close` is the outcome of
`this.browser.close()`, consulted only when `this.browser` is set. The manager afterwards
and whether the call returns or throws. -/
def BrowserManager.cleanup (bm : BrowserManager) (close : Except JsError Unit) :
    BrowserManager × Except JsError Unit :=
  match bm.browser with
  | some _ =>
    match close with
    | .ok _ => ({ bm with browser := none, pages := bm.pages.clear }, .ok ())
    | .error e => (bm, .error e)
  | none => (bm, .ok ())

/-- Number of pages with `inUse = true`. -/
def BrowserManager.inUseCount (bm : BrowserManager) : Nat :=
  bm.pages.entries.countP (fun e => e.2.inUse)

/-- Number of pages with `inUse = false`. -/
def BrowserManager.idleCount (bm : BrowserManager) : Nat :=
  bm.pages.entries.countP (fun e => !e.2.inUse)

/-- One call on the pool. -/
inductive PoolOp where
  | getPage (env : PageEnv)
  | releasePage (id : String)
  | cleanup (close : Except JsError Unit)

/-- The manager after one call. -/
def BrowserManager.step (bm : BrowserManager) : PoolOp → BrowserManager
  | .getPage env => (bm.getPage env).1
  | .releasePage id => bm.releasePage id
  | .cleanup close => (bm.cleanup close).1

/-- The manager after a sequence of calls, each run to completion. -/
def BrowserManager.run (bm : BrowserManager) (ops : List PoolOp) : BrowserManager :=
  ops.foldl BrowserManager.step bm

/-! ## Overlapping calls on the page pool

`getPage()` and `cleanup()` are `async`: a call runs until its next `await`, is suspended
there, and other calls run in between. `releasePage(id)` has no `await` and runs in one
piece. -/

/-- Where a `getPage()` call stands: suspended at one of its `await`s, or finished. -/
inductive GetPageCall where
  /-- inside `initialize()`, at `await puppeteer.launch(...)` (line 104) -/
  | awaitingLaunch
  /-- at `await this.initialize()` (line 133), `initialize()` having returned -/
  | awaitingInitialize
  /-- at `await this.browser.newPage()` (line 145) -/
  | awaitingNewPage
  /-- at `await this.setupPage(page)` (line 146), `page` being the new page -/
  | awaitingSetupPage (page : Nat)
  /-- the call has returned a value or thrown an error -/
  | returned (result : Except JsError Acquired)
deriving DecidableEq

/-- The pool together with the calls in flight: the `getPage()` calls made so far, in the
order they were made, and the number of `cleanup()` calls suspended at
`await this.browser.close()` (line 183). -/
structure PoolSystem where
  bm : BrowserManager
  calls : List GetPageCall
  closing : Nat

/-- A fresh `BrowserManager` on which no call has been made. -/
def PoolSystem.fresh : PoolSystem := ⟨BrowserManager.new, [], 0⟩

/-- What happens next on the pool. -/
inductive PoolEvent where
  /-- a caller calls `getPage()`, which runs to its first `await` -/
  | callGetPage
  /-- the `i`-th `getPage()` call resumes with the outcome of what it awaited (read from
  `env`) and runs to its next `await` or to its end -/
  | resumeGetPage (i : Nat) (env : PageEnv)
  /-- a caller calls `releasePage(id)` -/
  | callReleasePage (id : String)
  /-- a caller calls `cleanup()`, which runs to its `await` -/
  | callCleanup
  /-- a suspended `cleanup()` call resumes with the outcome of `this.browser.close()` -/
  | resumeCleanup (close : Except JsError Unit)

/-- The error of evaluating `this.browser.newPage()` while `this.browser` is `null`. -/
def nullBrowserError : JsError :=
  ⟨"TypeError", "Cannot read properties of null (reading 'newPage')"⟩

/-- The piece of `getPage()` that runs when the call resumes from where it is suspended:
the pool afterwards and where the call stands then. -/
def BrowserManager.resumeGetPage (bm : BrowserManager) (env : PageEnv) :
    GetPageCall → BrowserManager × GetPageCall
  | .awaitingLaunch =>
    match env.launch with
    | .ok b => ({ bm with browser := some b }, .awaitingInitialize)
    | .error e => (bm, .returned (.error e))
  | .awaitingInitialize =>
    match bm.pages.entries.find? (fun e => !e.2.inUse) with
    | some (id, page) =>
      ({ bm with pages := bm.pages.set id { page with inUse := true } },
        .returned (.ok { page := page.page, id := id }))
    | none =>
      if bm.pages.size < bm.maxPages then
        match bm.browser with
        | some _ => (bm, .awaitingNewPage)
        | none => (bm, .returned (.error nullBrowserError))
      else (bm, .returned (.error (mkError "No pages available")))
  | .awaitingNewPage =>
    match env.newPage with
    | .ok page => (bm, .awaitingSetupPage page)
    | .error e => (bm, .returned (.error e))
  | .awaitingSetupPage page =>
    match env.setupPage with
    | .ok _ =>
      let id := toString env.now
      ({ bm with pages := bm.pages.set id { page := page, inUse := true } },
        .returned (.ok { page := page, id := id }))
    | .error e => (bm, .returned (.error e))
  | .returned result => (bm, .returned result)

/-- The pool and the calls in flight after one event. -/
def PoolSystem.step (sys : PoolSystem) : PoolEvent → PoolSystem
  | .callGetPage =>
    match sys.bm.browser with
    | some _ => { sys with calls := sys.calls ++ [.awaitingInitialize] }
    | none => { sys with calls := sys.calls ++ [.awaitingLaunch] }
  | .resumeGetPage i env =>
    match sys.calls[i]? with
    | some call =>
      { sys with
        bm := (sys.bm.resumeGetPage env call).1,
        calls := sys.calls.set i (sys.bm.resumeGetPage env call).2 }
    | none => sys
  | .callReleasePage id => { sys with bm := sys.bm.releasePage id }
  | .callCleanup =>
    match sys.bm.browser with
    | some _ => { sys with closing := sys.closing + 1 }
    | none => sys
  | .resumeCleanup close =>
    match sys.closing with
    | 0 => sys
    | n + 1 =>
      match close with
      | .ok _ =>
        { bm := { sys.bm with browser := none, pages := sys.bm.pages.clear },
          calls := sys.calls, closing := n }
      | .error _ => { sys with closing := n }

/-- The pool and the calls in flight after a sequence of events. -/
def PoolSystem.run (sys : PoolSystem) (events : List PoolEvent) : PoolSystem :=
  events.foldl PoolSystem.step sys

/-! ## Regular expressions (`server.js` line 194) -/

/-- The regular-expression constructs used by `reelPattern`. The only starred subpattern
of the source is the class `.`, so the star is taken over a character class. -/
inductive Re where
  /-- a literal character -/
  | chr (c : Char)
  /-- a character class such as `[A-Za-z0-9_-]` or `.` -/
  | cls (p : Char → Bool)
  /-- the empty pattern -/
  | eps
  /-- concatenation -/
  | seq (a b : Re)
  /-- alternation `a|b` -/
  | alt (a b : Re)
  /-- greedy option `a?` -/
  | opt (a : Re)
  /-- counted repetition `a{n}` -/
  | rep (n : Nat) (a : Re)
  /-- greedy star over a class, `[...]*` -/
  | starCls (p : Char → Bool)

/-- A literal string, character by character. -/
def Re.str (s : String) : Re :=
  s.data.foldr (fun c r => Re.seq (Re.chr c) r) Re.eps

/-- Repeat the matcher `f` exactly `n` times. -/
def iterResiduals (f : List Char → List (List Char)) : Nat → List Char → List (List Char)
  | 0, s => [s]
  | n + 1, s => (f s).flatMap (iterResiduals f n)

/-- Greedy star over a class: the longest run first, then shorter ones. -/
def starResiduals (p : Char → Bool) : List Char → List (List Char)
  | [] => [[]]
  | c :: cs => if p c then starResiduals p cs ++ [c :: cs] else [c :: cs]

/-- Backtracking matcher: every remainder of `s` left after the pattern has matched a
prefix of `s`, in the order a backtracking engine tries them. -/
def Re.residuals : Re → List Char → List (List Char)
  | .chr c, s =>
    match s with
    | x :: xs => if x = c then [xs] else []
    | [] => []
  | .cls p, s =>
    match s with
    | x :: xs => if p x then [xs] else []
    | [] => []
  | .eps, s => [s]
  | .seq a b, s => (a.residuals s).flatMap (fun t => b.residuals t)
  | .alt a b, s => a.residuals s ++ b.residuals s
  | .opt a, s => a.residuals s ++ [s]
  | .rep n a, s => iterResiduals (fun t => a.residuals t) n s
  | .starCls p, s => starResiduals p s

/-- The method `pattern.test(s)` for a pattern written `/^...$/` without flags: the
pattern must match the whole of `s`. -/
def Re.test (r : Re) (s : String) : Bool :=
  (r.residuals s.data).any List.isEmpty

/-- The class `[A-Za-z0-9_-]`. -/
def isIdChar (c : Char) : Bool :=
  (decide ('A' ≤ c) && decide (c ≤ 'Z')) || (decide ('a' ≤ c) && decide (c ≤ 'z')) ||
    (decide ('0' ≤ c) && decide (c ≤ '9')) || c == '_' || c == '-'

/-- The line terminators of ECMAScript: LF, CR, U+2028, U+2029. -/
def isLineTerminator (c : Char) : Bool :=
  c == Char.ofNat 10 || c == Char.ofNat 13 || c == Char.ofNat 8232 || c == Char.ofNat 8233

/-- The class `.` (no `s` flag): any character but a line terminator. -/
def isDot (c : Char) : Bool := !isLineTerminator c

/-- The pattern `reelPattern` of `validateInstagramUrl`, between `^` and `$`:
`https:\/\/(?:www\.)?instagram\.com\/(?:reel|reels|tv)\/([A-Za-z0-9_-]{11})\/?(?:\?.*)?`. -/
def reelPattern : Re :=
  .seq (.str "https://")
  (.seq (.opt (.str "www."))
  (.seq (.str "instagram.com/")
  (.seq (.alt (.str "reel") (.alt (.str "reels") (.str "tv")))
  (.seq (.chr '/')
  (.seq (.rep 11 (.cls isIdChar))
  (.seq (.opt (.chr '/'))
  (.opt (.seq (.chr '?') (.starCls isDot)))))))))

/-- The function `validateInstagramUrl(url)` (lines 193-196). -/
def validateInstagramUrl (url : String) : Bool :=
  reelPattern.test url

/-- The words a pattern matches in full (the language of the pattern). -/
def Re.Matches : Re → List Char → Prop
  | .chr c, w => w = [c]
  | .cls p, w => ∃ c, p c = true ∧ w = [c]
  | .eps, w => w = []
  | .seq a b, w => ∃ u v, w = u ++ v ∧ a.Matches u ∧ b.Matches v
  | .alt a b, w => a.Matches w ∨ b.Matches w
  | .opt a, w => a.Matches w ∨ w = []
  | .rep n a, w => ∃ parts : List (List Char),
      parts.length = n ∧ w = parts.flatten ∧ ∀ u ∈ parts, a.Matches u
  | .starCls p, w => ∀ c ∈ w, p c = true

/-- The expected shape of a reel URL, as the specification words it: `https://`, optional
`www.`, `instagram.com/`, one of `reel`, `reels`, `tv`, `/`, an identifier of exactly 11
characters from `A-Z a-z 0-9 _ -`, an optional `/`, and an optional `?` followed by any
characters without a line break. -/
def ExpectedShape (url : String) : Prop :=
  ∃ (www : Bool) (kind : String) (ident : List Char) (slash : Bool)
    (query : Option (List Char)),
    (kind = "reel" ∨ kind = "reels" ∨ kind = "tv") ∧
    ident.length = 11 ∧
    (∀ c ∈ ident, c.isAlphanum = true ∨ c = '_' ∨ c = '-') ∧
    (∀ q, query = some q → ∀ c ∈ q, isLineTerminator c = false) ∧
    url.data = "https://".data ++ (if www then "www.".data else []) ++ "instagram.com/".data
      ++ kind.data ++ ['/'] ++ ident ++ (if slash then ['/'] else [])
      ++ (match query with
          | some q => '?' :: q
          | none => [])

/-! ## The `/api/fetch-instagram` handler (`server.js` lines 241-302) -/

/-- The method `s.includes(t)` of a JavaScript string. -/
def includes (s t : String) : Bool :=
  s.data.tails.any (fun rest => t.data.isPrefixOf rest)

/-- The object returned by `fetchReelContent` / `fetchInstagramContent`. -/
structure Content where
  thumbnail : Option String
  title : String
  username : Option String
deriving DecidableEq, Repr

/-- The object the resolver `instagramGetUrl` resolves to; `url_list = none` is a missing
property. -/
structure IgResponse where
  url_list : Option (List String)
deriving DecidableEq, Repr

/-- The body passed to `res.json`. -/
inductive Body where
  /-- the object `{ success: false, message }` -/
  | failure (message : String)
  /-- a `responseData` object, fresh or from the cache -/
  | reel (data : ReelData)
deriving DecidableEq, Repr

/-- The response sent: the status (`200` unless `res.status` is called) and the body. -/
structure Response where
  status : Nat
  body : Body
deriving DecidableEq, Repr

/-- The field `success` of a response body. -/
def Body.success : Body → Bool
  | .failure _ => false
  | .reel data => data.success

/-- The calls a handler makes on the cache and on the page pool. -/
inductive Effect where
  | cacheGet (key : String)
  | cacheSet (key : String)
  | getPage
  | releasePage (id : String)
deriving DecidableEq, Repr

/-- The process-wide state of `server.js`: `cache` and `browserManager`. -/
structure ServerState where
  cache : Cache
  browserManager : BrowserManager

/-- What the outside world answers during one `/api/fetch-instagram` request. -/
structure FetchEnv where
  /-- value of `Date.now()` at the cache check (line 255) -/
  now : Int
  /-- the answers to `browserManager.getPage()` -/
  pageEnv : PageEnv
  /-- outcome of `fetchReelContent(url, page)` -/
  content : Except JsError Content
  /-- outcome of `instagramGetUrl(url)` if it settles within 15000 ms, else `none` -/
  resolver : Option (Except JsError (Option IgResponse))
  /-- when both promises reject: whether `fetchReelContent` rejects first -/
  contentRejectsFirst : Bool
  /-- value of `Date.now()` at the cache write (line 290) -/
  nowSet : Int

/-- The race of lines 264-269: the resolver against the 15000 ms timer. -/
def raceTimeout {α : Type} (resolver : Option (Except JsError α)) : Except JsError α :=
  match resolver with
  | some outcome => outcome
  | none => .error (mkError "Timeout")

/-- The call `Promise.all([a, b])`: both values, or the rejection that comes first. -/
def promiseAll {α β : Type} (a : Except JsError α) (b : Except JsError β)
    (aRejectsFirst : Bool) : Except JsError (α × β) :=
  match a, b with
  | .ok x, .ok y => .ok (x, y)
  | .error e, .ok _ => .error e
  | .ok _, .error e => .error e
  | .error e1, .error e2 => .error (if aRejectsFirst then e1 else e2)

/-- The test `!igResponse?.url_list?.length` (line 274). -/
def noUrlList (igResponse : Option IgResponse) : Bool :=
  match igResponse with
  | none => true
  | some r =>
    match r.url_list with
    | none => true
    | some l => l.length == 0

/-- The list `igResponse.url_list` once line 274 has passed. -/
def urlList (igResponse : Option IgResponse) : List String :=
  ((igResponse.bind IgResponse.url_list).getD [])

/-- The response of the `catch` block (lines 295-301). -/
def fetchFailure (error : JsError) : Response :=
  ⟨500, .failure ("Failed to fetch reel: " ++ error.message)⟩

/-- The response of lines 246-249. -/
def invalidUrlResponse : Response :=
  ⟨400, .failure "Please provide a valid Instagram reel URL"⟩

/-- The object `responseData` of lines 278-286. -/
def reelResponseData (content : Content) (igResponse : Option IgResponse) : ReelData :=
  let mediaUrl := (urlList igResponse).find? (fun url => includes url ".mp4")
  { success := true, type := "reel", title := content.title, thumbnail := content.thumbnail,
    downloadUrl := mediaUrl, mediaType := "video" }

/-- The handler from the page acquisition on (lines 259-301), reached on a cache miss. -/
def fetchAfterCacheMiss (st : ServerState) (url : String) (env : FetchEnv) :
    ServerState × Response × List Effect :=
  match st.browserManager.getPage env.pageEnv with
  | (bm1, .error e) => (⟨st.cache, bm1⟩, fetchFailure e, [.cacheGet url, .getPage])
  | (bm1, .ok acquired) =>
    match promiseAll env.content (raceTimeout env.resolver) env.contentRejectsFirst with
    | .error e => (⟨st.cache, bm1⟩, fetchFailure e, [.cacheGet url, .getPage])
    | .ok (content, igResponse) =>
      let bm2 := bm1.releasePage acquired.id
      if noUrlList igResponse then
        (⟨st.cache, bm2⟩, fetchFailure (mkError "Failed to fetch reel data"),
          [.cacheGet url, .getPage, .releasePage acquired.id])
      else
        let responseData := reelResponseData content igResponse
        (⟨st.cache.set url ⟨env.nowSet, responseData⟩, bm2⟩, ⟨200, .reel responseData⟩,
          [.cacheGet url, .getPage, .releasePage acquired.id, .cacheSet url])

/-- The `/api/fetch-instagram` handler (lines 242-302) on a `req.body.url` that is a string
(`none` when the property is missing; `fetchInstagramBody` takes any value): the state afterwards, the response, and the calls made on the cache
and the page pool. -/
def fetchInstagram (st : ServerState) (url : Option String) (env : FetchEnv) :
    ServerState × Response × List Effect :=
  match url with
  | none => (st, invalidUrlResponse, [])
  | some url =>
    if url = "" || !validateInstagramUrl url then (st, invalidUrlResponse, [])
    else
      match cacheLookup st.cache url env.now with
      | some data => (st, ⟨200, .reel data⟩, [.cacheGet url])
      | none => fetchAfterCacheMiss st url env

/-! ## The `/api/fetch-instagram` handler on any value of `req.body.url` -/

mutual
/-- A value of `req.body.url` as the body parsers deliver it. A number is given by what the
handler can observe of it: whether it is zero and the text `String(n)`; an object by
whether it has an own property named `toString` (which, coming from JSON, is not
callable). -/
inductive Json where
  /-- the value `null` -/
  | null
  /-- a boolean -/
  | bool (b : Bool)
  /-- a number -/
  | num (isZero : Bool) (text : String)
  /-- a string -/
  | str (s : String)
  /-- an array -/
  | arr (items : JsonList)
  /-- an object -/
  | obj (ownToString : Bool)
  deriving DecidableEq
/-- The elements of an array. -/
inductive JsonList where
  /-- no element -/
  | nil
  /-- a first element and the rest -/
  | cons (head : Json) (tail : JsonList)
  deriving DecidableEq
end

/-- The truthiness of a value: `!url` is its negation. -/
def Json.truthy : Json → Bool
  | .null => false
  | .bool b => b
  | .num isZero _ => !isZero
  | .str s => decide (s ≠ "")
  | .arr _ => true
  | .obj _ => true

mutual
/-- The coercion `String(v)` that `RegExp.prototype.test` applies to its argument; `none`
when it throws a `TypeError` (an object whose own `toString` is not callable). -/
def Json.toJsString : Json → Option String
  | .null => some "null"
  | .bool b => some (if b then "true" else "false")
  | .num _ text => some text
  | .str s => some s
  | .arr items => items.join
  | .obj ownToString => if ownToString then none else some "[object Object]"
/-- The method `Array.prototype.join` with the separator `,`. -/
def JsonList.join : JsonList → Option String
  | .nil => some ""
  | .cons x .nil => x.itemString
  | .cons x (.cons y rest) =>
    match x.itemString, (JsonList.cons y rest).join with
    | some a, some b => some (a ++ "," ++ b)
    | _, _ => none
/-- The text of one element in `join`: `null` gives the empty string. -/
def Json.itemString : Json → Option String
  | .null => some ""
  | .bool b => some (if b then "true" else "false")
  | .num _ text => some text
  | .str s => some s
  | .arr items => items.join
  | .obj ownToString => if ownToString then none else some "[object Object]"
end

/-- The calls the handler makes on the cache and on the page pool, the cache key being
any value. -/
inductive BodyEffect where
  | cacheGet (key : Json)
  | cacheSet (key : Json)
  | getPage
  | releasePage (id : String)
deriving DecidableEq

/-- The call of `Effect` with its key as a value. -/
def Effect.toBodyEffect : Effect → BodyEffect
  | .cacheGet key => .cacheGet (.str key)
  | .cacheSet key => .cacheSet (.str key)
  | .getPage => .getPage
  | .releasePage id => .releasePage id

/-- The state of `server.js` when cache keys may be any value: `server.cache` holds the
entries stored under strings, `otherKeyed` those stored under other keys, in insertion
order. -/
structure BodyState where
  server : ServerState
  otherKeyed : List (Json × CacheEntry)

/-- The method `cache.get(key)` for a key that is not a string: a `Map` compares keys with
SameValueZero, so an array or an object, which each request creates anew, is never found;
other values are found by equality. -/
def getOtherKeyed (entries : List (Json × CacheEntry)) (key : Json) : Option CacheEntry :=
  match key with
  | .arr _ => none
  | .obj _ => none
  | key => (entries.find? (fun e => decide (e.1 = key))).map Prod.snd

/-- The method `cache.set(key, value)` for a key that is not a string. -/
def setOtherKeyed (entries : List (Json × CacheEntry)) (key : Json) (value : CacheEntry) :
    List (Json × CacheEntry) :=
  match getOtherKeyed entries key with
  | some _ => entries.map (fun e => if e.1 = key then (key, value) else e)
  | none => entries ++ [(key, value)]

/-- The `try` block of the handler (lines 252-301) for a `url` that is not a string. -/
def fetchOtherKey (st : BodyState) (url : Json) (env : FetchEnv) :
    BodyState × Option Response × List BodyEffect :=
  let hit :=
    match getOtherKeyed st.otherKeyed url with
    | some cachedData =>
      if env.now - cachedData.timestamp < CACHE_DURATION then some cachedData.data else none
    | none => none
  match hit with
  | some data => (st, some ⟨200, .reel data⟩, [.cacheGet url])
  | none =>
    match st.server.browserManager.getPage env.pageEnv with
    | (bm1, .error e) =>
      (⟨⟨st.server.cache, bm1⟩, st.otherKeyed⟩, some (fetchFailure e),
        [.cacheGet url, .getPage])
    | (bm1, .ok acquired) =>
      match promiseAll env.content (raceTimeout env.resolver) env.contentRejectsFirst with
      | .error e =>
        (⟨⟨st.server.cache, bm1⟩, st.otherKeyed⟩, some (fetchFailure e),
          [.cacheGet url, .getPage])
      | .ok (content, igResponse) =>
        let bm2 := bm1.releasePage acquired.id
        if noUrlList igResponse then
          (⟨⟨st.server.cache, bm2⟩, st.otherKeyed⟩,
            some (fetchFailure (mkError "Failed to fetch reel data")),
            [.cacheGet url, .getPage, .releasePage acquired.id])
        else
          let responseData := reelResponseData content igResponse
          (⟨⟨st.server.cache, bm2⟩,
              setOtherKeyed st.otherKeyed url ⟨env.nowSet, responseData⟩⟩,
            some ⟨200, .reel responseData⟩,
            [.cacheGet url, .getPage, .releasePage acquired.id, .cacheSet url])

/-- The `/api/fetch-instagram` handler (lines 242-302) on any `req.body.url` (`none` when
the property is missing): the state afterwards, the response the handler sends (`none`
when it sends none: the coercion in `reelPattern.test(url)` throws before the `try` block
and the promise of the handler rejects), and the calls made on the cache and the page
pool. -/
def fetchInstagramBody (st : BodyState) (url : Option Json) (env : FetchEnv) :
    BodyState × Option Response × List BodyEffect :=
  match url with
  | none => (st, some invalidUrlResponse, [])
  | some url =>
    if !url.truthy then (st, some invalidUrlResponse, [])
    else
      match url.toJsString with
      | none => (st, none, [])
      | some text =>
        if !validateInstagramUrl text then (st, some invalidUrlResponse, [])
        else
          match url with
          | .str key =>
            match cacheLookup st.server.cache key env.now with
            | some data => (st, some ⟨200, .reel data⟩, [.cacheGet url])
            | none =>
              match fetchAfterCacheMiss st.server key env with
              | (server, response, effects) =>
                (⟨server, st.otherKeyed⟩, some response, effects.map Effect.toBodyEffect)
          | url => fetchOtherKey st url env

/-! ## The `/api/fetch-instagram-post` handler (`post.js` lines 54-82, 165-187) -/

/-- The function `detectMediaType(url)` (`post.js` lines 165-187). The argument `none` is
`undefined`; the result `none` is `null`. The input `probe` is the outcome of the `HEAD`
request: the `content-type` header of the answer (`none` when the header is absent, in
which case `contentType.includes` throws inside the `try`), or the rejection. -/
def detectMediaType (url : Option String) (probe : Except JsError (Option String)) :
    Option String :=
  match url with
  | none => none
  | some url =>
    if url = "" then none
    else if includes url ".mp4" then some "video"
    else if includes url ".jpg" || includes url ".jpeg" || includes url ".png" then
      some "image"
    else
      match probe with
      | .ok (some contentType) =>
        if includes contentType "video" then some "video"
        else if includes contentType "image" then some "image"
        else some "image"
      | _ => some (if includes url "video" then "video" else "image")

/-- The object sent on success by the `/api/fetch-instagram-post` handler (lines 69-77);
`none` is `null`. -/
structure PostData where
  success : Bool
  type : String
  title : String
  thumbnail : Option String
  username : Option String
  downloadUrl : Option String
  mediaType : Option String
deriving DecidableEq, Repr

/-- The body passed to `res.json` by `post.js`. -/
inductive PostBody where
  /-- the object `{ success: false, message }` -/
  | failure (message : String)
  /-- the object of lines 69-77 -/
  | post (data : PostData)
deriving DecidableEq, Repr

/-- The response sent by `post.js`. -/
structure PostResponse where
  status : Nat
  body : PostBody
deriving DecidableEq, Repr

/-- The field `success` of a response body of `post.js`. -/
def PostBody.success : PostBody → Bool
  | .failure _ => false
  | .post data => data.success

/-- What the outside world answers during one `/api/fetch-instagram-post` request. -/
structure PostEnv where
  /-- value of `validator.isURL(url)` -/
  isURL : Bool
  /-- outcome of `fetchInstagramContent(url)` -/
  content : Except JsError Content
  /-- outcome of `instagramGetUrl(url)` -/
  resolver : Except JsError (Option IgResponse)
  /-- when both promises reject: whether `fetchInstagramContent` rejects first -/
  contentRejectsFirst : Bool
  /-- outcome of the `HEAD` request of `detectMediaType` -/
  probe : Except JsError (Option String)

/-- The expression `igResponse?.url_list?.[0]`; `none` is `undefined`. -/
def firstCandidate (igResponse : Option IgResponse) : Option String :=
  (igResponse.bind IgResponse.url_list).bind List.head?

/-- The expression `x || null` on an optional string: the empty string is falsy. -/
def orNull (x : Option String) : Option String :=
  match x with
  | some s => if s = "" then none else some s
  | none => none

/-- The `/api/fetch-instagram-post` handler (`post.js` lines 54-82). -/
def fetchInstagramPost (env : PostEnv) : PostResponse :=
  if !env.isURL then ⟨400, .failure "Invalid URL"⟩
  else
    match promiseAll env.content env.resolver env.contentRejectsFirst with
    | .error error => ⟨500, .failure error.message⟩
    | .ok (content, igResponse) =>
      let mediaType := detectMediaType (firstCandidate igResponse) env.probe
      ⟨200, .post
        { success := true, type := "post", title := content.title,
          thumbnail := content.thumbnail, username := content.username,
          downloadUrl := orNull (firstCandidate igResponse), mediaType := mediaType }⟩

/-! ## The `/download` route (`post.js` lines 84-138, 189-197) -/

/-- The class `[a-zA-Z0-9]`, whose complement the route replaces. -/
def isAsciiAlnum (c : Char) : Bool :=
  (decide ('a' ≤ c) && decide (c ≤ 'z')) || (decide ('A' ≤ c) && decide (c ≤ 'Z')) ||
    (decide ('0' ≤ c) && decide (c ≤ '9'))

/-- Number of UTF-16 code units of a character: the unit of a JavaScript string and of a
pattern without the `u` flag. -/
def utf16Length (c : Char) : Nat :=
  if c.toNat < 65536 then 1 else 2

/-- Number of UTF-16 code units of a string: the property `s.length`. -/
def jsLength (s : String) : Nat :=
  (s.data.map utf16Length).sum

/-- The expression `filename.replace(/[^a-zA-Z0-9]/g, '-')` (line 111): every code unit
outside the class becomes `-`; a character outside the Basic Multilingual Plane is two
code units, both outside the class. -/
def replaceNonAlnum (filename : String) : String :=
  ⟨filename.data.flatMap
    (fun c => if isAsciiAlnum c then [c] else List.replicate (utf16Length c) '-')⟩

/-- The names of the properties every object literal inherits from `Object.prototype`
(ECMAScript, Annex B included). Each of them is a function or an object, hence truthy. -/
def objectPrototypeKeys : List String :=
  ["constructor", "hasOwnProperty", "isPrototypeOf", "propertyIsEnumerable",
    "toLocaleString", "toString", "valueOf", "__proto__", "__defineGetter__",
    "__defineSetter__", "__lookupGetter__", "__lookupSetter__"]

/-- A value of the expression `types[contentType] || '.jpg'`: a string of the table or
the default, or the member of `Object.prototype` that the lookup finds under an inherited
name. -/
inductive ExtValue where
  /-- a string -/
  | str (s : String)
  /-- the value `Object.prototype[name]` -/
  | inherited (name : String)
deriving DecidableEq, Repr

/-- The function `getFileExtension(contentType)` (lines 189-197); `none` is `undefined`,
which the lookup reads as the key `"undefined"`. -/
def getFileExtension (contentType : Option String) : ExtValue :=
  match contentType with
  | none => .str ".jpg"
  | some contentType =>
    if contentType = "video/mp4" then .str ".mp4"
    else if contentType = "image/jpeg" then .str ".jpg"
    else if contentType = "image/jpg" then .str ".jpg"
    else if contentType = "image/png" then .str ".png"
    else if contentType ∈ objectPrototypeKeys then .inherited contentType
    else .str ".jpg"

/-- The string a value becomes in `... + fileExt`; `inheritedText name` is the text of
`String(Object.prototype[name])`, which depends on the engine. -/
def ExtValue.text (inheritedText : String → String) : ExtValue → String
  | .str s => s
  | .inherited name => inheritedText name

/-- The value `sanitizedFilename` (line 111). -/
def sanitizedFilename (inheritedText : String → String) (filename : String)
    (contentType : Option String) : String :=
  replaceNonAlnum filename ++ (getFileExtension contentType).text inheritedText

/-- The value given to the header `Content-Disposition` (line 113). -/
def contentDisposition (inheritedText : String → String) (filename : String)
    (contentType : Option String) : String :=
  "attachment; filename=\"savereelify.com - "
    ++ sanitizedFilename inheritedText filename contentType ++ "\""

/-- The headers of the answer of the remote server that the route reads. -/
structure RemoteHeaders where
  contentType : Option String
  contentLength : Option String
deriving DecidableEq, Repr

/-- What the outside world answers during one `/download` request. -/
structure DownloadEnv where
  /-- value of `validator.isURL(url)` -/
  isURL : Bool
  /-- outcome of the `axios` request -/
  remote : Except JsError RemoteHeaders
  /-- text of `String(Object.prototype[name])` -/
  inheritedText : String → String

/-- What the `/download` route sends: a JSON failure or the piped stream. -/
inductive DownloadBody where
  /-- the object `{ success: false, message }` -/
  | failure (message : String)
  /-- the remote data, piped -/
  | stream
deriving DecidableEq, Repr

/-- The response of the `/download` route: status, the headers set with `res.setHeader`,
in order, and the body. -/
structure DownloadResponse where
  status : Nat
  headers : List (String × String)
  body : DownloadBody
deriving DecidableEq, Repr

/-- Whether a query parameter is falsy: missing or empty. -/
def isFalsy (x : Option String) : Bool :=
  match x with
  | none => true
  | some s => decide (s = "")

/-- The `/download` route of `post.js` (lines 85-138), up to the start of the stream.
A missing `content-type` makes `res.setHeader('Content-Type', undefined)` throw inside the
`try`, after `Content-Disposition` has been set. -/
def download (url filename : Option String) (env : DownloadEnv) : DownloadResponse :=
  if isFalsy url || isFalsy filename || !env.isURL then
    ⟨400, [], .failure "Invalid URL or filename"⟩
  else
    match env.remote with
    | .error _ => ⟨500, [], .failure "Failed to download file"⟩
    | .ok response =>
      let disposition :=
        contentDisposition env.inheritedText (filename.getD "") response.contentType
      match response.contentType with
      | none =>
        ⟨500, [("Content-Disposition", disposition)], .failure "Failed to download file"⟩
      | some contentType =>
        ⟨200,
          [("Content-Disposition", disposition), ("Content-Type", contentType)]
            ++ (if isFalsy response.contentLength then []
                else [("Content-Length", response.contentLength.getD "")]),
          .stream⟩

/-! ## Error handling middleware (`server.js` lines 385-409) -/

/-- The middleware `errorHandler` (lines 386-407), which answers an error passed to
`next`. The `/api/fetch-instagram` handler catches every error of its `try` block itself
and never calls `next`. -/
def errorHandler (err : JsError) : Response :=
  if err.name = "AbortError" then ⟨408, .failure "Request timeout"⟩
  else if err.name = "ValidationError" then ⟨400, .failure err.message⟩
  else ⟨500, .failure "An unexpected error occurred"⟩

/-! ## The error of a failing request (`server.js` lines 252-301) -/

/-- The error with which the `try` block of the `/api/fetch-instagram` handler exits once
the cache check has missed; `none` when the block runs to its end. The error is the
rejection of `getPage()` (line 259); else the rejection of `Promise.all` (lines 262-270),
which is that of the page fetch or of the raced resolver, whichever comes first; else the
error thrown at line 275. -/
def tryBlockError (st : ServerState) (env : FetchEnv) : Option JsError :=
  match (st.browserManager.getPage env.pageEnv).2 with
  | .error e => some e
  | .ok _ =>
    match env.content, raceTimeout env.resolver with
    | .error e1, .error e2 => some (if env.contentRejectsFirst then e1 else e2)
    | .error e1, .ok _ => some e1
    | .ok _, .error e2 => some e2
    | .ok _, .ok igResponse =>
      if noUrlList igResponse then some (mkError "Failed to fetch reel data") else none

/-! ## Sample values -/

/-- A reel URL of the expected shape. -/
def sampleUrl : String := "https://www.instagram.com/reel/ABCDEFGHIJK/"

/-- A payload as the handler builds it. -/
def sampleData : ReelData :=
  { success := true, type := "reel", title := "Instagram Reel", thumbnail := none,
    downloadUrl := some "https://x/b.mp4", mediaType := "video" }

/-- A cache entry written at time `0`. -/
def boundaryEntry : CacheEntry := ⟨0, sampleData⟩

/-- A cache holding `boundaryEntry` under `sampleUrl`. -/
def boundaryCache : Cache := JsMap.empty.set sampleUrl boundaryEntry

/-- Answers of the outside world in which every external call succeeds. -/
def sampleEnv : FetchEnv :=
  { now := 1000,
    pageEnv := { launch := .ok 1, newPage := .ok 7, setupPage := .ok (), now := 1001 },
    content := .ok { thumbnail := none, title := "Instagram Reel", username := none },
    resolver := some (.ok (some ⟨some ["https://x/a.jpg", "https://x/b.mp4"]⟩)),
    contentRejectsFirst := true,
    nowSet := 1002 }

/-- The state of a server with `boundaryCache` and a fresh page pool. -/
def sampleState : ServerState := ⟨boundaryCache, BrowserManager.new⟩

/-- Answers to one `getPage()` call in which every external call succeeds: the new page
is `page` and the clock reads `now`. -/
def pageEnvAt (page : Nat) (now : Int) : PageEnv :=
  { launch := .ok 1, newPage := .ok page, setupPage := .ok (), now := now }

/-- A pool holding one idle page: page `7` was acquired at clock `1000` and released. -/
def idlePool : BrowserManager :=
  (BrowserManager.new.getPage (pageEnvAt 7 1000)).1.releasePage "1000"

/-- A server with an empty cache and the pool `idlePool`. -/
def idleState : ServerState := ⟨JsMap.empty, idlePool⟩

/-- As `sampleEnv`, but the resolver rejects while the page fetch succeeds. -/
def resolverFailsEnv : FetchEnv :=
  { sampleEnv with resolver := some (.error (mkError "resolver failed")) }

/-- As `sampleEnv`, but the page fetch rejects while the resolver succeeds. -/
def contentFailsEnv : FetchEnv :=
  { sampleEnv with content := .error (mkError "Navigation timeout") }

/-- As `sampleEnv`, but the resolver returns one candidate, which is not an `.mp4`. -/
def jpgOnlyEnv : FetchEnv :=
  { sampleEnv with resolver := some (.ok (some ⟨some ["https://x/a.jpg"]⟩)) }

/-- As `sampleEnv`, but the resolver returns an empty candidate list. -/
def emptyListEnv : FetchEnv :=
  { sampleEnv with resolver := some (.ok (some ⟨some []⟩)) }

/-- Answers to a `/api/fetch-instagram-post` request in which the page fetch succeeds and
the resolver result has no `url_list`. -/
def postNoListEnv : PostEnv :=
  { isURL := true,
    content := .ok { thumbnail := none, title := "Instagram Content", username := none },
    resolver := .ok (some ⟨none⟩),
    contentRejectsFirst := true,
    probe := .error (mkError "not called") }

/-- Five `getPage()` calls at five different clock values. -/
def fiveAcquisitions : List PoolOp :=
  [.getPage (pageEnvAt 1 1000), .getPage (pageEnvAt 2 1001), .getPage (pageEnvAt 3 1002),
    .getPage (pageEnvAt 4 1003), .getPage (pageEnvAt 5 1004)]

/-- A first `getPage()` on a fresh pool, with the clock at `1000`. -/
def firstAcquisition : BrowserManager × Except JsError Acquired :=
  BrowserManager.new.getPage (pageEnvAt 7 1000)

/-- A second `getPage()` right after `firstAcquisition`, with the clock still at `1000`. -/
def secondAcquisition : BrowserManager × Except JsError Acquired :=
  firstAcquisition.1.getPage (pageEnvAt 8 1000)

/-- A third `getPage()`, after the first caller has released the id it was given. -/
def thirdAcquisition : BrowserManager × Except JsError Acquired :=
  (secondAcquisition.1.releasePage "1000").getPage (pageEnvAt 9 1001)

/-- The pool of `firstAcquisition` after `cleanup()` has closed the browser. -/
def closedPool : BrowserManager := (firstAcquisition.1.cleanup (.ok ())).1

/-- The ids in `held` (handed out by `getPage` and not released since) are all in the pool
and marked `inUse`. -/
def HeldInUse (bm : BrowserManager) (held : List String) : Prop :=
  ∀ id ∈ held, ∃ page, bm.pages.get id = some ⟨page, true⟩

/-- What holds of the pool in every state reachable from `BrowserManager.new`. -/
def PoolInv (bm : BrowserManager) : Prop :=
  bm.maxPages = 5 ∧ bm.pages.size ≤ 5 ∧ (bm.browser = none → bm.pages.size = 0)

/-- As `resolverFailsEnv`, but the resolver rejects with another message. -/
def resolverFailsOtherEnv : FetchEnv :=
  { sampleEnv with resolver := some (.error (mkError "connect ECONNREFUSED 10.0.0.5:443")) }

/-- Answers to a `/download` request whose remote resource reports `image/png` and
`Content-Length: 1000`. -/
def pngDownloadEnv : DownloadEnv :=
  { isURL := true,
    remote := .ok { contentType := some "image/png", contentLength := some "1000" },
    inheritedText := fun _ => "function Object() \x7b [native code] \x7d" }

/-- As `pngDownloadEnv`, but the remote resource reports the content type `constructor`. -/
def constructorDownloadEnv : DownloadEnv :=
  { pngDownloadEnv with
    remote := .ok { contentType := some "constructor", contentLength := some "1000" } }

/-- The array `[sampleUrl]`: not a string, yet `String([sampleUrl])` is `sampleUrl`. -/
def arrayUrl : Json := .arr (.cons (.str sampleUrl) .nil)

/-- The state `idleState` with no entry stored under a key that is not a string. -/
def idleBodyState : BodyState := ⟨idleState, []⟩

/-- Each of six `getPage()` calls resumes once, call `i` getting the new page `i + 1` and
reading the clock at `1000 + i`. -/
def resumeSixCalls : List PoolEvent :=
  [.resumeGetPage 0 (pageEnvAt 1 1000), .resumeGetPage 1 (pageEnvAt 2 1001),
    .resumeGetPage 2 (pageEnvAt 3 1002), .resumeGetPage 3 (pageEnvAt 4 1003),
    .resumeGetPage 4 (pageEnvAt 5 1004), .resumeGetPage 5 (pageEnvAt 6 1005)]

/-- Six overlapping `getPage()` calls: all six are made before any of them resumes, and
they resume in turn from each of their four `await`s. -/
def sixOverlappingCalls : List PoolEvent :=
  List.replicate 6 .callGetPage
    ++ resumeSixCalls ++ resumeSixCalls ++ resumeSixCalls ++ resumeSixCalls

/-! ## Facts about `JsMap` -/

theorem JsMap.eq_of_mem_of_key_eq {V : Type} (m : JsMap V) {a b : String × V}
    (ha : a ∈ m.entries) (hb : b ∈ m.entries) (hk : a.1 = b.1) : a = b :=
  List.inj_on_of_nodup_map m.nodupKeys ha hb hk

theorem JsMap.get_eq_some_iff {V : Type} (m : JsMap V) (k : String) (v : V) :
    m.get k = some v ↔ (k, v) ∈ m.entries := by
  unfold JsMap.get
  constructor
  · intro h
    rw [Option.map_eq_some'] at h
    obtain ⟨e, he, hv⟩ := h
    have hmem := List.mem_of_find?_eq_some he
    have hkey := List.find?_some he
    simp only [decide_eq_true_eq] at hkey
    have : e = (k, v) := by
      cases e
      simp_all
    exact this ▸ hmem
  · intro h
    cases hf : m.entries.find? (fun e => decide (e.1 = k)) with
    | none =>
      rw [List.find?_eq_none] at hf
      have := hf (k, v) h
      simp at this
    | some e =>
      have hmem := List.mem_of_find?_eq_some hf
      have hkey := List.find?_some hf
      simp only [decide_eq_true_eq] at hkey
      have := m.eq_of_mem_of_key_eq hmem h hkey
      simp [this]

theorem JsMap.ext_entries {V : Type} {a b : JsMap V} (h : a.entries = b.entries) : a = b := by
  cases a
  cases b
  simp_all

/-! ## The cache sweep -/

theorem sweep_fold_entries (now : Int) (l : List (String × CacheEntry)) (acc : Cache) :
    (l.foldl (fun c kv => if now - kv.2.timestamp > CACHE_DURATION then c.delete kv.1 else c)
      acc).entries
      = acc.entries.filter
          (fun e => l.all (fun x => !(sweepRemoves now x.2 && decide (x.1 = e.1)))) := by
  induction l generalizing acc with
  | nil => simp
  | cons x l ih =>
    rw [List.foldl_cons, ih]
    by_cases hx : now - x.2.timestamp > CACHE_DURATION
    · simp only [hx, if_true, JsMap.delete, List.filter_filter]
      apply List.filter_congr
      intro e _
      simp [sweepRemoves, hx, Bool.and_comm, eq_comm]
    · simp only [hx, if_false]
      apply List.filter_congr
      intro e _
      simp [sweepRemoves, hx]

theorem sweep_entries (now : Int) (cache : Cache) :
    (sweep now cache).entries
      = cache.entries.filter (fun e => decide (now - e.2.timestamp ≤ CACHE_DURATION)) := by
  unfold sweep
  rw [sweep_fold_entries]
  apply List.filter_congr
  intro e he
  by_cases hx : now - e.2.timestamp > CACHE_DURATION
  · have h1 : decide (now - e.2.timestamp ≤ CACHE_DURATION) = false := by
      simp only [decide_eq_false_iff_not, not_le]
      exact hx
    rw [h1, List.all_eq_false]
    exact ⟨e, he, by simp [sweepRemoves, hx]⟩
  · have h1 : decide (now - e.2.timestamp ≤ CACHE_DURATION) = true := by
      simp only [decide_eq_true_eq]
      exact not_lt.mp hx
    rw [h1, List.all_eq_true]
    intro x hxm
    by_cases hk : x.1 = e.1
    · have := cache.eq_of_mem_of_key_eq hxm he hk
      subst this
      simp [sweepRemoves, hx]
    · simp [hk]

theorem sweep_get (now : Int) (cache : Cache) (k : String) (e : CacheEntry) :
    (sweep now cache).get k = some e
      ↔ cache.get k = some e ∧ now - e.timestamp ≤ CACHE_DURATION := by
  rw [JsMap.get_eq_some_iff, JsMap.get_eq_some_iff, sweep_entries, List.mem_filter]
  simp

/-- Claim C9: the periodic sweep run at time `now` keeps exactly the entries whose age
`now - timestamp` is at most `CACHE_DURATION`, in their order and each with its key,
payload and timestamp unchanged, and removes every other entry. -/
theorem sweep_keeps_exactly_fresh (now : Int) (cache : Cache) :
    (sweep now cache).entries
        = cache.entries.filter (fun e => decide (now - e.2.timestamp ≤ CACHE_DURATION))
      ∧ (∀ k e, (sweep now cache).get k = some e
          ↔ cache.get k = some e ∧ ¬ (now - e.timestamp > CACHE_DURATION)) := by
  refine ⟨sweep_entries now cache, ?_⟩
  intro k e
  rw [sweep_get, not_lt]

/-- Claim C10, counterexample: an entry written at time `0` survives the sweep run at
time `600000` (its age equals `CACHE_DURATION`), yet the lookup at that same time treats
it as expired and does not return it. -/
theorem lookup_sweep_disagree_at_boundary :
    (sweep 600000 boundaryCache).get sampleUrl = some boundaryEntry
      ∧ cacheLookup boundaryCache sampleUrl 600000 = none := by
  decide

theorem sweep_get_none (now : Int) (cache : Cache) (k : String) (e : CacheEntry)
    (h : cache.get k = some e) :
    (sweep now cache).get k = none ↔ now - e.timestamp > CACHE_DURATION := by
  constructor
  · intro hn
    by_contra hc
    have := (sweep_get now cache k e).2 ⟨h, not_lt.mp hc⟩
    rw [hn] at this
    exact Option.noConfusion this
  · intro hgt
    cases hs : (sweep now cache).get k with
    | none => rfl
    | some e2 =>
      have h2 := (sweep_get now cache k e2).1 hs
      rw [h] at h2
      have : e = e2 := Option.some.inj h2.1
      subst this
      exact absurd h2.2 (not_le.mpr hgt)

/-- Claim C10, amended: for an entry stored under `url`, if the sweep run at time `now`
removes it then the lookup at that same `now` treats it as expired; if it survives the
sweep and its age is not exactly `CACHE_DURATION` then the lookup returns its payload; and
the lookup treats it as expired exactly when the sweep removes it or its age equals
`CACHE_DURATION`. -/
theorem sweep_removed_implies_lookup_expired (cache : Cache) (url : String)
    (entry : CacheEntry) (now : Int) (h : cache.get url = some entry) :
    ((sweep now cache).get url = none → cacheLookup cache url now = none)
      ∧ ((sweep now cache).get url = some entry → now - entry.timestamp ≠ CACHE_DURATION →
          cacheLookup cache url now = some entry.data)
      ∧ (cacheLookup cache url now = none
          ↔ (sweep now cache).get url = none ∨ now - entry.timestamp = CACHE_DURATION) := by
  have hl : cacheLookup cache url now
      = if now - entry.timestamp < CACHE_DURATION then some entry.data else none := by
    simp [cacheLookup, h]
  rw [sweep_get_none now cache url entry h, sweep_get, hl]
  refine ⟨?_, ?_, ?_⟩
  · intro hgt
    rw [if_neg (by omega)]
  · intro hle hne
    rw [if_pos (by omega)]
  · constructor
    · intro hn
      by_cases hlt : now - entry.timestamp < CACHE_DURATION
      · rw [if_pos hlt] at hn
        exact Option.noConfusion hn
      · omega
    · intro hor
      rw [if_neg (by omega)]

theorem sweep_removed_implies_lookup_expired_witness :
    boundaryCache.get sampleUrl = some boundaryEntry
      ∧ (cacheLookup boundaryCache sampleUrl 700000 = none
          ↔ (sweep 700000 boundaryCache).get sampleUrl = none
            ∨ (700000 : Int) - boundaryEntry.timestamp = CACHE_DURATION) :=
  ⟨by decide,
    (sweep_removed_implies_lookup_expired boundaryCache sampleUrl boundaryEntry 700000
      (by decide)).2.2⟩

/-! ## The cache check of the handler -/

theorem fetchInstagram_valid (st : ServerState) (url : String) (env : FetchEnv)
    (hne : url ≠ "") (hv : validateInstagramUrl url = true) :
    fetchInstagram st (some url) env
      = match cacheLookup st.cache url env.now with
        | some data => (st, ⟨200, .reel data⟩, [.cacheGet url])
        | none => fetchAfterCacheMiss st url env := by
  simp [fetchInstagram, hne, hv]

theorem getPage_mem_fetchAfterCacheMiss (st : ServerState) (url : String) (env : FetchEnv) :
    Effect.getPage ∈ (fetchAfterCacheMiss st url env).2.2 := by
  unfold fetchAfterCacheMiss
  split
  · simp
  · split
    · simp
    · split <;> simp

/-- Claim C4: a request with a valid URL is answered from the cache exactly when the cache
holds an entry for that URL with `now - timestamp < CACHE_DURATION`. In that case the
response is the stored payload, the cache and the page pool are unchanged and the only
call made is the cache read. When the entry is absent or `now - timestamp >=
CACHE_DURATION`, the handler runs its cache-miss path, which calls `getPage`. -/
theorem cache_hit_iff_fresh_entry (st : ServerState) (url : String) (env : FetchEnv)
    (hne : url ≠ "") (hv : validateInstagramUrl url = true) :
    (∀ entry, st.cache.get url = some entry →
        env.now - entry.timestamp < CACHE_DURATION →
        fetchInstagram st (some url) env = (st, ⟨200, .reel entry.data⟩, [.cacheGet url]))
      ∧ ((st.cache.get url = none
            ∨ ∃ entry, st.cache.get url = some entry
                ∧ env.now - entry.timestamp ≥ CACHE_DURATION) →
          fetchInstagram st (some url) env = fetchAfterCacheMiss st url env
            ∧ Effect.getPage ∈ (fetchInstagram st (some url) env).2.2)
      ∧ ((fetchInstagram st (some url) env).2.2 = [.cacheGet url]
          ↔ ∃ entry, st.cache.get url = some entry
              ∧ env.now - entry.timestamp < CACHE_DURATION) := by
  have hmiss : ∀ s : ServerState × Response × List Effect,
      Effect.getPage ∈ s.2.2 → s.2.2 ≠ [Effect.cacheGet url] := by
    intro s hs heq
    rw [heq] at hs
    simp at hs
  rw [fetchInstagram_valid st url env hne hv]
  cases hg : st.cache.get url with
  | none =>
    have hl : cacheLookup st.cache url env.now = none := by simp [cacheLookup, hg]
    rw [hl]
    refine ⟨?_, ?_, ?_⟩
    · intro entry he
      exact Option.noConfusion he
    · intro _
      exact ⟨rfl, getPage_mem_fetchAfterCacheMiss st url env⟩
    · constructor
      · intro h
        exact absurd h (hmiss _ (getPage_mem_fetchAfterCacheMiss st url env))
      · rintro ⟨entry, he, _⟩
        exact Option.noConfusion he
  | some e =>
    by_cases hlt : env.now - e.timestamp < CACHE_DURATION
    · have hl : cacheLookup st.cache url env.now = some e.data := by
        simp [cacheLookup, hg, hlt]
      rw [hl]
      refine ⟨?_, ?_, ?_⟩
      · intro entry he _
        rw [← Option.some.inj he]
      · rintro (h | ⟨entry, he, hge⟩)
        · exact Option.noConfusion h
        · rw [← Option.some.inj he] at hge
          omega
      · constructor
        · intro _
          exact ⟨e, rfl, hlt⟩
        · intro _
          rfl
    · have hl : cacheLookup st.cache url env.now = none := by
        simp [cacheLookup, hg, hlt]
      rw [hl]
      refine ⟨?_, ?_, ?_⟩
      · intro entry he hlt2
        rw [← Option.some.inj he] at hlt2
        exact absurd hlt2 hlt
      · intro _
        exact ⟨rfl, getPage_mem_fetchAfterCacheMiss st url env⟩
      · constructor
        · intro h
          exact absurd h (hmiss _ (getPage_mem_fetchAfterCacheMiss st url env))
        · rintro ⟨entry, he, hlt2⟩
          rw [← Option.some.inj he] at hlt2
          exact absurd hlt2 hlt

theorem cache_hit_iff_fresh_entry_witness :
    (sampleUrl ≠ "" ∧ validateInstagramUrl sampleUrl = true)
      ∧ fetchInstagram sampleState (some sampleUrl) sampleEnv
          = (sampleState, ⟨200, .reel sampleData⟩, [.cacheGet sampleUrl]) :=
  ⟨by decide,
    (cache_hit_iff_fresh_entry sampleState sampleUrl sampleEnv (by decide) (by decide)).1
      boundaryEntry (by decide) (by decide)⟩

/-! ## The backtracking matcher computes the language of a pattern -/

theorem mem_starResiduals (p : Char → Bool) (s r : List Char) :
    r ∈ starResiduals p s ↔ ∃ w, s = w ++ r ∧ ∀ c ∈ w, p c = true := by
  induction s with
  | nil =>
    simp only [starResiduals, List.mem_singleton]
    constructor
    · intro h
      exact ⟨[], by simp [h], by simp⟩
    · rintro ⟨w, hw, _⟩
      have := List.append_eq_nil.mp hw.symm
      exact this.2
  | cons c cs ih =>
    unfold starResiduals
    by_cases hp : p c = true
    · rw [if_pos hp, List.mem_append, ih, List.mem_singleton]
      constructor
      · rintro (⟨w, hw, hall⟩ | h)
        · refine ⟨c :: w, by simp [hw], ?_⟩
          intro x hx
          rcases List.mem_cons.mp hx with h1 | h1
          · exact h1 ▸ hp
          · exact hall x h1
        · exact ⟨[], by simp [h], by simp⟩
      · rintro ⟨w, hw, hall⟩
        cases w with
        | nil => exact Or.inr (by simpa using hw.symm)
        | cons x xs =>
          rw [List.cons_append, List.cons.injEq] at hw
          exact Or.inl ⟨xs, hw.2, fun y hy => hall y (List.mem_cons_of_mem _ hy)⟩
    · rw [if_neg hp, List.mem_singleton]
      constructor
      · intro h
        exact ⟨[], by simp [h], by simp⟩
      · rintro ⟨w, hw, hall⟩
        cases w with
        | nil => simpa using hw.symm
        | cons x xs =>
          rw [List.cons_append, List.cons.injEq] at hw
          exact absurd (hall x (List.mem_cons_self _ _)) (hw.1 ▸ hp)

theorem mem_iterResiduals (f : List Char → List (List Char)) (L : List Char → Prop)
    (hf : ∀ s r, r ∈ f s ↔ ∃ w, s = w ++ r ∧ L w) (n : Nat) (s r : List Char) :
    r ∈ iterResiduals f n s
      ↔ ∃ parts : List (List Char),
          parts.length = n ∧ s = parts.flatten ++ r ∧ ∀ u ∈ parts, L u := by
  induction n generalizing s with
  | zero =>
    simp only [iterResiduals, List.mem_singleton]
    constructor
    · intro h
      exact ⟨[], rfl, by simp [h], by simp⟩
    · rintro ⟨parts, hl, hs, _⟩
      rw [List.length_eq_zero] at hl
      subst hl
      simpa using hs.symm
  | succ n ih =>
    simp only [iterResiduals, List.mem_flatMap]
    constructor
    · rintro ⟨t, ht, hr⟩
      obtain ⟨w, hw, hLw⟩ := (hf s t).1 ht
      obtain ⟨parts, hl, hs, hall⟩ := (ih t).1 hr
      refine ⟨w :: parts, by simp [hl], by simp [hw, hs], ?_⟩
      intro u hu
      rcases List.mem_cons.mp hu with h1 | h1
      · exact h1 ▸ hLw
      · exact hall u h1
    · rintro ⟨parts, hl, hs, hall⟩
      cases parts with
      | nil => simp at hl
      | cons w rest =>
        refine ⟨rest.flatten ++ r, (hf s _).2 ⟨w, by simp [hs], hall w (List.mem_cons_self _ _)⟩,
          (ih _).2 ⟨rest, by simpa using hl, rfl, fun u hu => hall u (List.mem_cons_of_mem _ hu)⟩⟩

theorem mem_residuals (re : Re) (s r : List Char) :
    r ∈ re.residuals s ↔ ∃ w, s = w ++ r ∧ re.Matches w := by
  induction re generalizing s r with
  | chr c =>
    cases s with
    | nil => simp [Re.residuals, Re.Matches]
    | cons x xs =>
      by_cases hx : x = c
      · simp [Re.residuals, Re.Matches, hx, eq_comm]
      · simp [Re.residuals, Re.Matches, hx]
  | cls p =>
    cases s with
    | nil => simp [Re.residuals, Re.Matches]
    | cons x xs =>
      by_cases hx : p x = true
      · simp only [Re.residuals, hx, if_true, List.mem_singleton, Re.Matches]
        constructor
        · intro h
          exact ⟨[x], by simp [h], x, hx, rfl⟩
        · rintro ⟨w, hw, c, _, rfl⟩
          simp at hw
          exact hw.2.symm
      · simp only [Re.residuals, hx, Re.Matches]
        constructor
        · intro h
          simp at h
        · rintro ⟨w, hw, c, hc, rfl⟩
          simp at hw
          exact absurd (hw.1 ▸ hc) hx
  | eps => simp [Re.residuals, Re.Matches, eq_comm]
  | seq a b iha ihb =>
    simp only [Re.residuals, List.mem_flatMap, Re.Matches]
    constructor
    · rintro ⟨t, ht, hr⟩
      obtain ⟨u, hu, hau⟩ := (iha s t).1 ht
      obtain ⟨v, hv, hbv⟩ := (ihb t r).1 hr
      exact ⟨u ++ v, by simp [hu, hv], u, v, rfl, hau, hbv⟩
    · rintro ⟨w, hw, u, v, rfl, hau, hbv⟩
      exact ⟨v ++ r, (iha s _).2 ⟨u, by simp [hw], hau⟩, (ihb _ r).2 ⟨v, rfl, hbv⟩⟩
  | alt a b iha ihb =>
    simp only [Re.residuals, List.mem_append, Re.Matches, iha, ihb]
    constructor
    · rintro (⟨w, hw, h⟩ | ⟨w, hw, h⟩)
      · exact ⟨w, hw, Or.inl h⟩
      · exact ⟨w, hw, Or.inr h⟩
    · rintro ⟨w, hw, h | h⟩
      · exact Or.inl ⟨w, hw, h⟩
      · exact Or.inr ⟨w, hw, h⟩
  | opt a iha =>
    simp only [Re.residuals, List.mem_append, List.mem_singleton, Re.Matches, iha]
    constructor
    · rintro (⟨w, hw, h⟩ | h)
      · exact ⟨w, hw, Or.inl h⟩
      · exact ⟨[], by simp [h], Or.inr rfl⟩
    · rintro ⟨w, hw, h | h⟩
      · exact Or.inl ⟨w, hw, h⟩
      · subst h
        exact Or.inr (by simpa using hw.symm)
  | rep n a iha =>
    simp only [Re.residuals, Re.Matches]
    rw [mem_iterResiduals (fun t => a.residuals t) a.Matches (fun s r => iha s r)]
    constructor
    · rintro ⟨parts, hl, hs, hall⟩
      exact ⟨parts.flatten, hs, parts, hl, rfl, hall⟩
    · rintro ⟨w, hw, parts, hl, rfl, hall⟩
      exact ⟨parts, hl, hw, hall⟩
  | starCls p =>
    simp only [Re.residuals, Re.Matches]
    exact mem_starResiduals p s r

theorem test_iff_matches (re : Re) (s : String) : re.test s = true ↔ re.Matches s.data := by
  unfold Re.test
  rw [List.any_eq_true]
  constructor
  · rintro ⟨r, hr, he⟩
    rw [List.isEmpty_iff] at he
    subst he
    obtain ⟨w, hw, hm⟩ := (mem_residuals re s.data []).1 hr
    rw [List.append_nil] at hw
    exact hw ▸ hm
  · intro hm
    exact ⟨[], (mem_residuals re s.data []).2 ⟨s.data, by simp, hm⟩, rfl⟩

/-! ## The shape accepted by `validateInstagramUrl` -/

theorem matches_seq (a b : Re) (w : List Char) :
    (Re.seq a b).Matches w ↔ ∃ u v, w = u ++ v ∧ a.Matches u ∧ b.Matches v := Iff.rfl

theorem matches_alt (a b : Re) (w : List Char) :
    (Re.alt a b).Matches w ↔ a.Matches w ∨ b.Matches w := Iff.rfl

theorem matches_opt (a : Re) (w : List Char) :
    (Re.opt a).Matches w ↔ a.Matches w ∨ w = [] := Iff.rfl

theorem matches_chr (c : Char) (w : List Char) : (Re.chr c).Matches w ↔ w = [c] := Iff.rfl

theorem matches_starCls (p : Char → Bool) (w : List Char) :
    (Re.starCls p).Matches w ↔ ∀ c ∈ w, p c = true := Iff.rfl

theorem matches_literal (l w : List Char) :
    (l.foldr (fun c r => Re.seq (Re.chr c) r) Re.eps).Matches w ↔ w = l := by
  induction l generalizing w with
  | nil => simp [Re.Matches]
  | cons c l ih =>
    simp only [List.foldr_cons, matches_seq, matches_chr, ih]
    constructor
    · rintro ⟨u, v, rfl, rfl, rfl⟩
      rfl
    · intro h
      exact ⟨[c], l, h, rfl, rfl⟩

theorem matches_str (s : String) (w : List Char) : (Re.str s).Matches w ↔ w = s.data :=
  matches_literal s.data w

theorem flatten_of_singletons (p : Char → Bool) (parts : List (List Char))
    (h : ∀ u ∈ parts, ∃ c, p c = true ∧ u = [c]) :
    parts.flatten.length = parts.length ∧ ∀ c ∈ parts.flatten, p c = true := by
  induction parts with
  | nil => simp
  | cons u rest ih =>
    obtain ⟨c, hc, rfl⟩ := h _ (List.mem_cons_self _ _)
    have := ih (fun v hv => h v (List.mem_cons_of_mem _ hv))
    refine ⟨by simp [this.1, Nat.add_comm], ?_⟩
    intro x hx
    simp only [List.flatten_cons, List.singleton_append, List.mem_cons] at hx
    rcases hx with h1 | h1
    · exact h1 ▸ hc
    · exact this.2 x h1

theorem singletons_of_class (p : Char → Bool) (w : List Char) (h : ∀ c ∈ w, p c = true) :
    ∃ parts : List (List Char), parts.length = w.length ∧ w = parts.flatten
      ∧ ∀ u ∈ parts, ∃ c, p c = true ∧ u = [c] := by
  induction w with
  | nil => exact ⟨[], rfl, rfl, by simp⟩
  | cons c cs ih =>
    obtain ⟨parts, hl, hf, hall⟩ := ih (fun x hx => h x (List.mem_cons_of_mem _ hx))
    refine ⟨[c] :: parts, by simp [hl], by simp [← hf], ?_⟩
    intro u hu
    rcases List.mem_cons.mp hu with h1 | h1
    · exact ⟨c, h c (List.mem_cons_self _ _), h1⟩
    · exact hall u h1

theorem matches_rep_cls (n : Nat) (p : Char → Bool) (w : List Char) :
    (Re.rep n (Re.cls p)).Matches w ↔ w.length = n ∧ ∀ c ∈ w, p c = true := by
  constructor
  · rintro ⟨parts, hl, rfl, hall⟩
    have := flatten_of_singletons p parts hall
    exact ⟨this.1.trans hl, this.2⟩
  · rintro ⟨hl, hall⟩
    obtain ⟨parts, hpl, hf, hp⟩ := singletons_of_class p w hall
    exact ⟨parts, hpl.trans hl, hf, hp⟩

theorem isIdChar_iff (c : Char) :
    isIdChar c = true ↔ (c.isAlphanum = true ∨ c = '_' ∨ c = '-') := by
  simp only [isIdChar, Char.isAlphanum, Char.isAlpha, Char.isUpper, Char.isLower, Char.isDigit,
    Bool.or_eq_true, Bool.and_eq_true, decide_eq_true_eq, beq_iff_eq, Char.le_def, ge_iff_le]
  have hA : 'A'.val = 65 := rfl
  have hZ : 'Z'.val = 90 := rfl
  have ha : 'a'.val = 97 := rfl
  have hz : 'z'.val = 122 := rfl
  have h0 : '0'.val = 48 := rfl
  have h9 : '9'.val = 57 := rfl
  rw [hA, hZ, ha, hz, h0, h9, or_assoc]

theorem reelPattern_matches_iff (w : List Char) :
    reelPattern.Matches w ↔
      ∃ (www : Bool) (kind : String) (ident : List Char) (slash : Bool)
        (query : Option (List Char)),
        (kind = "reel" ∨ kind = "reels" ∨ kind = "tv") ∧
        ident.length = 11 ∧
        (∀ c ∈ ident, c.isAlphanum = true ∨ c = '_' ∨ c = '-') ∧
        (∀ q, query = some q → ∀ c ∈ q, isLineTerminator c = false) ∧
        w = "https://".data ++ (if www then "www.".data else []) ++ "instagram.com/".data
          ++ kind.data ++ ['/'] ++ ident ++ (if slash then ['/'] else [])
          ++ (match query with
              | some q => '?' :: q
              | none => []) := by
  simp only [reelPattern, matches_seq, matches_alt, matches_opt, matches_chr, matches_starCls,
    matches_str, matches_rep_cls]
  constructor
  · rintro ⟨u1, v1, rfl, rfl, u2, v2, rfl, h2, u3, v3, rfl, rfl, u4, v4, rfl, h4, u5, v5, rfl,
      rfl, u6, v6, rfl, ⟨h6l, h6c⟩, u7, u8, rfl, h7, h8⟩
    have e2 : ∃ www : Bool, u2 = if www then "www.".data else [] := by
      rcases h2 with h | h
      · exact ⟨true, h⟩
      · exact ⟨false, h⟩
    have e4 : ∃ kind : String,
        (kind = "reel" ∨ kind = "reels" ∨ kind = "tv") ∧ u4 = kind.data := by
      rcases h4 with h | h | h
      · exact ⟨"reel", Or.inl rfl, h⟩
      · exact ⟨"reels", Or.inr (Or.inl rfl), h⟩
      · exact ⟨"tv", Or.inr (Or.inr rfl), h⟩
    have e7 : ∃ slash : Bool, u7 = if slash then ['/'] else [] := by
      rcases h7 with h | h
      · exact ⟨true, h⟩
      · exact ⟨false, h⟩
    have e8 : ∃ query : Option (List Char),
        (∀ q, query = some q → ∀ c ∈ q, isLineTerminator c = false) ∧
        u8 = (match query with
              | some q => '?' :: q
              | none => []) := by
      rcases h8 with ⟨a, b, rfl, rfl, hb⟩ | h
      · refine ⟨some b, ?_, rfl⟩
        intro q hq c hc
        have := hb c ((Option.some.inj hq) ▸ hc)
        simpa [isDot] using this
      · exact ⟨none, by simp, h⟩
    obtain ⟨www, rfl⟩ := e2
    obtain ⟨kind, hk, rfl⟩ := e4
    obtain ⟨slash, rfl⟩ := e7
    obtain ⟨query, hq, rfl⟩ := e8
    refine ⟨www, kind, u6, slash, query, hk, h6l, ?_, hq, ?_⟩
    · intro c hc
      exact (isIdChar_iff c).1 (h6c c hc)
    · simp only [List.append_assoc]
  · rintro ⟨www, kind, ident, slash, query, hk, hl, hc, hq, rfl⟩
    refine ⟨"https://".data, _, ?_, rfl, (if www then "www.".data else []), _, rfl, ?_,
      "instagram.com/".data, _, rfl, rfl, kind.data, _, rfl, ?_, ['/'], _, rfl, rfl, ident, _,
      rfl, ⟨hl, fun c h => (isIdChar_iff c).2 (hc c h)⟩, (if slash then ['/'] else []),
      (match query with
        | some q => '?' :: q
        | none => []), rfl, ?_, ?_⟩
    · cases query <;> simp only [List.append_assoc]
    · cases www
      · exact Or.inr rfl
      · exact Or.inl rfl
    · rcases hk with h | h | h
      · exact Or.inl (h ▸ rfl)
      · exact Or.inr (Or.inl (h ▸ rfl))
      · exact Or.inr (Or.inr (h ▸ rfl))
    · cases slash
      · exact Or.inr rfl
      · exact Or.inl rfl
    · cases query with
      | none => exact Or.inr rfl
      | some q =>
        refine Or.inl ⟨['?'], q, rfl, rfl, ?_⟩
        intro c hcq
        have := hq q rfl c hcq
        simp [isDot, this]

theorem validateInstagramUrl_iff (url : String) :
    validateInstagramUrl url = true ↔ ExpectedShape url := by
  unfold validateInstagramUrl ExpectedShape
  rw [test_iff_matches]
  exact reelPattern_matches_iff url.data

/-! ## Validation in the handler -/

theorem fetchAfterCacheMiss_status (st : ServerState) (url : String) (env : FetchEnv) :
    (fetchAfterCacheMiss st url env).2.1.status ≠ 400 := by
  unfold fetchAfterCacheMiss
  split
  · simp [fetchFailure]
  · split
    · simp [fetchFailure]
    · split <;> simp [fetchFailure]

theorem fetchInstagram_status_of_valid (st : ServerState) (url : String) (env : FetchEnv)
    (hne : url ≠ "") (hv : validateInstagramUrl url = true) :
    (fetchInstagram st (some url) env).2.1.status ≠ 400 := by
  rw [fetchInstagram_valid st url env hne hv]
  split
  · simp
  · exact fetchAfterCacheMiss_status st url env

theorem fetchInstagram_of_invalid (st : ServerState) (url : String) (env : FetchEnv)
    (h : url = "" ∨ validateInstagramUrl url = false) :
    fetchInstagram st (some url) env = (st, invalidUrlResponse, []) := by
  rcases h with h | h <;> simp [fetchInstagram, h]

theorem not_expectedShape_empty : ¬ ExpectedShape "" := by
  rintro ⟨www, kind, ident, slash, query, _, _, _, _, h⟩
  simp at h

/-- For a `url` that is missing or a string: the handler answers with status 400 exactly
when `url` is missing, empty or not of the expected shape; whenever it answers 400 the body is `success: false` with the
fixed message, the cache and the page pool are unchanged and no call is made on either;
and `validateInstagramUrl` accepts exactly the expected shape (`https://`, optional
`www.`, `instagram.com/`, `reel`, `reels` or `tv`, `/`, 11 characters from
`A-Z a-z 0-9 _ -`, optional `/`, optional `?` and characters other than line breaks). -/
theorem invalid_url_rejected_iff (st : ServerState) (url : Option String) (env : FetchEnv) :
    ((fetchInstagram st url env).2.1.status = 400
        ↔ (url = none ∨ url = some "" ∨ ∃ u, url = some u ∧ ¬ ExpectedShape u))
      ∧ ((fetchInstagram st url env
            = (st, ⟨400, .failure "Please provide a valid Instagram reel URL"⟩, [])
          ∧ (fetchInstagram st url env).2.1.body.success = false)
        ∨ (fetchInstagram st url env).2.1.status ≠ 400)
      ∧ (∀ u : String, validateInstagramUrl u = true ↔ ExpectedShape u) := by
  refine ⟨?_, ?_, validateInstagramUrl_iff⟩
  · cases url with
    | none => simp [fetchInstagram, invalidUrlResponse]
    | some u =>
      by_cases hv : validateInstagramUrl u = true
      · have hs := (validateInstagramUrl_iff u).1 hv
        have hne : u ≠ "" := fun h => not_expectedShape_empty (h ▸ hs)
        have := fetchInstagram_status_of_valid st u env hne hv
        simp [this, hne, hs]
      · have hs : ¬ ExpectedShape u := fun h => hv ((validateInstagramUrl_iff u).2 h)
        rw [fetchInstagram_of_invalid st u env (Or.inr (Bool.eq_false_iff.mpr hv))]
        simp [invalidUrlResponse, hs]
  · cases url with
    | none => exact Or.inl ⟨rfl, rfl⟩
    | some u =>
      by_cases hv : validateInstagramUrl u = true
      · have hs := (validateInstagramUrl_iff u).1 hv
        have hne : u ≠ "" := fun h => not_expectedShape_empty (h ▸ hs)
        exact Or.inr (fetchInstagram_status_of_valid st u env hne hv)
      · rw [fetchInstagram_of_invalid st u env (Or.inr (Bool.eq_false_iff.mpr hv))]
        exact Or.inl ⟨rfl, rfl⟩

/-! ## Validation of a `url` that is not a string -/

theorem fetchInstagramBody_str (st : BodyState) (key : String) (env : FetchEnv) :
    fetchInstagramBody st (some (.str key)) env
      = (⟨(fetchInstagram st.server (some key) env).1, st.otherKeyed⟩,
          some (fetchInstagram st.server (some key) env).2.1,
          (fetchInstagram st.server (some key) env).2.2.map Effect.toBodyEffect) := by
  by_cases hk : key = ""
  · subst hk
    rfl
  · cases hv : validateInstagramUrl key with
    | false =>
      rw [fetchInstagram_of_invalid st.server key env (Or.inr hv)]
      simp [fetchInstagramBody, Json.truthy, Json.toJsString, hk, hv]
    | true =>
      rw [fetchInstagram_valid st.server key env hk hv]
      simp only [fetchInstagramBody, Json.truthy, Json.toJsString, hk, hv]
      cases hl : cacheLookup st.server.cache key env.now with
      | some data => simp [Effect.toBodyEffect, hk]
      | none => simp [hk]

theorem fetchOtherKey_status (st : BodyState) (url : Json) (env : FetchEnv) :
    ∃ r, (fetchOtherKey st url env).2.1 = some r ∧ r.status ≠ 400 := by
  unfold fetchOtherKey
  simp only
  split
  · exact ⟨_, rfl, by simp⟩
  · split
    · exact ⟨_, rfl, by simp [fetchFailure]⟩
    · split
      · exact ⟨_, rfl, by simp [fetchFailure]⟩
      · split
        · exact ⟨_, rfl, by simp [fetchFailure]⟩
        · exact ⟨_, rfl, by simp⟩

/-- The handler on any value of `url` answers with status 400 exactly when `url` is
missing or falsy, or its coercion to a string succeeds and is not of the expected
shape. -/
theorem fetchInstagramBody_rejects_iff (st : BodyState) (url : Option Json) (env : FetchEnv) :
    (∃ r, (fetchInstagramBody st url env).2.1 = some r ∧ r.status = 400)
      ↔ (url = none
          ∨ ∃ v, url = some v
              ∧ (v.truthy = false
                  ∨ ∃ text, v.toJsString = some text ∧ ¬ ExpectedShape text)) := by
  cases url with
  | none =>
    constructor
    · intro _
      exact Or.inl rfl
    · intro _
      exact ⟨invalidUrlResponse, rfl, rfl⟩
  | some v =>
    by_cases ht : v.truthy = true
    · cases hs : v.toJsString with
      | none =>
        constructor
        · rintro ⟨r, hr, _⟩
          simp [fetchInstagramBody, ht, hs] at hr
        · rintro (h | ⟨w, hw, h | ⟨text, htext, _⟩⟩)
          · exact Option.noConfusion h
          · rw [← Option.some.inj hw, ht] at h
            exact Bool.noConfusion h
          · rw [← Option.some.inj hw, hs] at htext
            exact Option.noConfusion htext
      | some text =>
        by_cases hv : validateInstagramUrl text = true
        · have hshape := (validateInstagramUrl_iff text).1 hv
          constructor
          · rintro ⟨r, hr, h400⟩
            exfalso
            cases v with
            | str key =>
              have hkey : key = text := Option.some.inj hs
              subst hkey
              have hne : key ≠ "" := by simpa [Json.truthy] using ht
              rw [fetchInstagramBody_str] at hr
              have := fetchInstagram_status_of_valid st.server key env hne hv
              exact this ((Option.some.inj hr) ▸ h400)
            | null => simp [Json.truthy] at ht
            | bool b =>
              simp only [fetchInstagramBody, ht, hs, hv] at hr
              obtain ⟨r2, hr2, h2⟩ := fetchOtherKey_status st (.bool b) env
              exact h2 ((Option.some.inj (hr2.symm.trans hr)) ▸ h400)
            | num z t =>
              simp only [fetchInstagramBody, ht, hs, hv] at hr
              obtain ⟨r2, hr2, h2⟩ := fetchOtherKey_status st (.num z t) env
              exact h2 ((Option.some.inj (hr2.symm.trans hr)) ▸ h400)
            | arr items =>
              simp only [fetchInstagramBody, ht, hs, hv] at hr
              obtain ⟨r2, hr2, h2⟩ := fetchOtherKey_status st (.arr items) env
              exact h2 ((Option.some.inj (hr2.symm.trans hr)) ▸ h400)
            | obj o =>
              simp only [fetchInstagramBody, ht, hs, hv] at hr
              obtain ⟨r2, hr2, h2⟩ := fetchOtherKey_status st (.obj o) env
              exact h2 ((Option.some.inj (hr2.symm.trans hr)) ▸ h400)
          · rintro (h | ⟨w, hw, h | ⟨text2, htext, hns⟩⟩)
            · exact Option.noConfusion h
            · rw [← Option.some.inj hw, ht] at h
              exact Bool.noConfusion h
            · rw [← Option.some.inj hw, hs] at htext
              exact absurd ((Option.some.inj htext) ▸ hshape) hns
        · have hshape : ¬ ExpectedShape text :=
            fun h => hv ((validateInstagramUrl_iff text).2 h)
          constructor
          · intro _
            exact Or.inr ⟨v, rfl, Or.inr ⟨text, hs, hshape⟩⟩
          · intro _
            exact ⟨invalidUrlResponse, by simp [fetchInstagramBody, ht, hs, hv], rfl⟩
    · have hf : v.truthy = false := Bool.eq_false_iff.mpr ht
      constructor
      · intro _
        exact Or.inr ⟨v, rfl, Or.inl hf⟩
      · intro _
        exact ⟨invalidUrlResponse, by simp [fetchInstagramBody, hf], rfl⟩

/-- Claim C5, the code at a failing input: `req.body.url` is the array `[sampleUrl]`. It
is not a string of the expected shape, yet `!url` is false and `reelPattern.test(url)`
coerces it to `sampleUrl` and accepts it. The handler does not answer 400: it reads the
cache and acquires a page; when the resolver rejects it answers 500 and the page stays
`inUse`, and when every external call succeeds it answers 200 and writes the cache under
the array. For an object with an own `toString`, the coercion throws before the `try`
block and the handler sends no response at all. -/
theorem array_url_passes_validation :
    arrayUrl.toJsString = some sampleUrl
      ∧ (fetchInstagramBody idleBodyState (some arrayUrl) resolverFailsEnv).2.1
          = some ⟨500, .failure "Failed to fetch reel: resolver failed"⟩
      ∧ (fetchInstagramBody idleBodyState (some arrayUrl) resolverFailsEnv).2.2
          = [.cacheGet arrayUrl, .getPage]
      ∧ (fetchInstagramBody idleBodyState (some arrayUrl)
            resolverFailsEnv).1.server.browserManager.pages.entries
          = [("1000", ⟨7, true⟩)]
      ∧ (fetchInstagramBody idleBodyState (some arrayUrl) sampleEnv).2.1
          = some ⟨200, .reel sampleData⟩
      ∧ (fetchInstagramBody idleBodyState (some arrayUrl) sampleEnv).1.otherKeyed
          = [(arrayUrl, ⟨1002, sampleData⟩)]
      ∧ (fetchInstagramBody idleBodyState (some (.obj true)) sampleEnv).2.1 = none := by
  decide

/-! ## Selection of the media URL -/

theorem find_first (p : String → Bool) (pre post : List String) (u : String)
    (hpre : ∀ c ∈ pre, p c = false) (hu : p u = true) :
    (pre ++ u :: post).find? p = some u := by
  induction pre with
  | nil => simp [hu]
  | cons c cs ih =>
    have hc := hpre c (List.mem_cons_self _ _)
    simp only [List.cons_append, List.find?_cons, hc]
    exact ih (fun x hx => hpre x (List.mem_cons_of_mem _ hx))

/-- Claim C6, counterexample: for the non-empty candidate list `["https://x/a.jpg"]`,
which holds no `.mp4`, the handler answers `success: true` with `mediaType` `video` and
without any `downloadUrl` (`undefined`), not with the first candidate. -/
theorem downloadUrl_undefined_without_mp4 :
    jpgOnlyEnv.resolver = some (.ok (some ⟨some ["https://x/a.jpg"]⟩))
      ∧ (fetchInstagram idleState (some sampleUrl) jpgOnlyEnv).2.1
        = ⟨200, .reel { success := true, type := "reel", title := "Instagram Reel",
                        thumbnail := none, downloadUrl := none, mediaType := "video" }⟩ := by
  decide

/-- Claim C6, amended: when the handler reaches the resolver result (valid URL, cache
miss, a page acquired, page fetch and resolver both successful) and the candidate list
holds a candidate containing `.mp4`, the response is a success whose `downloadUrl` is the
first such candidate (no candidate before it contains `.mp4`) and whose `mediaType` is
`video`. -/
theorem downloadUrl_is_first_mp4 (st : ServerState) (url : String) (env : FetchEnv)
    (content : Content) (ig : IgResponse) (acquired : Acquired)
    (pre post : List String) (u : String)
    (hne : url ≠ "") (hv : validateInstagramUrl url = true)
    (hmiss : cacheLookup st.cache url env.now = none)
    (hget : (st.browserManager.getPage env.pageEnv).2 = .ok acquired)
    (hc : env.content = .ok content) (hr : env.resolver = some (.ok (some ig)))
    (hlist : ig.url_list = some (pre ++ u :: post))
    (hu : includes u ".mp4" = true) (hpre : ∀ c ∈ pre, includes c ".mp4" = false) :
    (fetchInstagram st (some url) env).2.1
      = ⟨200, .reel { success := true, type := "reel", title := content.title,
                      thumbnail := content.thumbnail, downloadUrl := some u,
                      mediaType := "video" }⟩ := by
  rw [fetchInstagram_valid st url env hne hv, hmiss]
  have hno : noUrlList (some ig) = false := by
    simp [noUrlList, hlist]
  have hfind : (urlList (some ig)).find? (fun c => includes c ".mp4") = some u := by
    simp only [urlList, Option.bind, hlist, Option.getD]
    exact find_first _ pre post u hpre hu
  cases hg : st.browserManager.getPage env.pageEnv with
  | mk bm1 r =>
    rw [hg] at hget
    simp only at hget
    subst hget
    simp [fetchAfterCacheMiss, hg, hc, hr, raceTimeout, promiseAll, hno, reelResponseData,
      hfind]

theorem downloadUrl_is_first_mp4_witness :
    (sampleUrl ≠ "" ∧ validateInstagramUrl sampleUrl = true
        ∧ includes "https://x/b.mp4" ".mp4" = true
        ∧ includes "https://x/a.jpg" ".mp4" = false)
      ∧ (fetchInstagram idleState (some sampleUrl) sampleEnv).2.1
        = ⟨200, .reel { success := true, type := "reel", title := "Instagram Reel",
                        thumbnail := none, downloadUrl := some "https://x/b.mp4",
                        mediaType := "video" }⟩ :=
  ⟨by decide,
    downloadUrl_is_first_mp4 idleState sampleUrl sampleEnv
      { thumbnail := none, title := "Instagram Reel", username := none }
      ⟨some ["https://x/a.jpg", "https://x/b.mp4"]⟩ ⟨7, "1000"⟩
      ["https://x/a.jpg"] [] "https://x/b.mp4"
      (by decide) (by decide) (by decide) (by decide) rfl rfl rfl (by decide)
      (by decide)⟩

/-! ## A resolver result without candidates -/

/-- Claim C8, counterexample: the `/api/fetch-instagram-post` handler of `post.js`
answers a resolver result without `url_list` with status 200 and `success: true`. -/
theorem post_succeeds_without_url_list :
    fetchInstagramPost postNoListEnv
        = ⟨200, .post { success := true, type := "post", title := "Instagram Content",
                        thumbnail := none, username := none, downloadUrl := none,
                        mediaType := none }⟩
      ∧ (fetchInstagramPost postNoListEnv).body.success = true := by
  decide

theorem firstCandidate_of_noUrlList (ig : Option IgResponse) (h : noUrlList ig = true) :
    firstCandidate ig = none := by
  cases ig with
  | none => rfl
  | some r =>
    cases r with
    | mk l =>
      cases l with
      | none => rfl
      | some l =>
        cases l with
        | nil => rfl
        | cons x xs => simp [noUrlList] at h

/-- Claim C8, amended: let the resolver result have a missing or empty `url_list`. In the
`/api/fetch-instagram` handler of `server.js`, a request that gets this result from the
resolver (no cache hit) is answered with `success: false`. In the
`/api/fetch-instagram-post` handler of `post.js`, when the URL passes `validator.isURL`
and the page fetch succeeds, this result is answered with status 200, `success: true`,
`downloadUrl: null` and `mediaType: null`. -/
theorem no_url_list_responses (ig : Option IgResponse) (hig : noUrlList ig = true) :
    (∀ (st : ServerState) (url : Option String) (env : FetchEnv),
        (∀ u, url = some u → cacheLookup st.cache u env.now = none) →
        env.resolver = some (.ok ig) →
        (fetchInstagram st url env).2.1.body.success = false)
      ∧ (∀ (penv : PostEnv) (content : Content),
          penv.isURL = true → penv.content = .ok content → penv.resolver = .ok ig →
          fetchInstagramPost penv
            = ⟨200, .post { success := true, type := "post", title := content.title,
                            thumbnail := content.thumbnail, username := content.username,
                            downloadUrl := none, mediaType := none }⟩) := by
  constructor
  · intro st url env hmiss hres
    cases url with
    | none => rfl
    | some u =>
      by_cases hv : u = "" ∨ validateInstagramUrl u = false
      · rw [fetchInstagram_of_invalid st u env hv]
        rfl
      · have hne : u ≠ "" := fun h => hv (Or.inl h)
        have hval : validateInstagramUrl u = true := by
          cases hb : validateInstagramUrl u with
          | true => rfl
          | false => exact absurd (Or.inr hb) hv
        rw [fetchInstagram_valid st u env hne hval, hmiss u rfl]
        simp only [fetchAfterCacheMiss, hres, raceTimeout]
        split
        · rfl
        · cases hc : env.content with
          | error e => rfl
          | ok c => simp [promiseAll, hig, fetchFailure, Body.success]
  · intro penv content hurl hcontent hpres
    simp [fetchInstagramPost, hurl, hcontent, hpres, promiseAll,
      firstCandidate_of_noUrlList ig hig, detectMediaType, orNull]

theorem no_url_list_responses_witness :
    noUrlList (some ⟨some []⟩) = true
      ∧ (fetchInstagram idleState (some sampleUrl) emptyListEnv).2.1.body.success = false
      ∧ (fetchInstagramPost { postNoListEnv with resolver := .ok (some ⟨some []⟩) }).status
          = 200 :=
  ⟨by decide,
    (no_url_list_responses (some ⟨some []⟩) (by decide)).1 idleState (some sampleUrl)
      emptyListEnv (by intro u hu; cases hu; decide) rfl,
    congrArg PostResponse.status
      ((no_url_list_responses (some ⟨some []⟩) (by decide)).2
        { postNoListEnv with resolver := .ok (some ⟨some []⟩) }
        { thumbnail := none, title := "Instagram Content", username := none } rfl rfl rfl)⟩

/-! ## Release of the page when the racing step fails -/

/-- Claim C1, the code at a failing input: the pool holds one idle page; the request
acquires it and the resolver rejects while the page fetch succeeds. The handler answers
with status 500, and the page it acquired is still marked `inUse` afterwards: the pool had
one idle page before the request and has none after it. The same holds when the page fetch
rejects while the resolver succeeds. -/
theorem page_not_released_when_racing_fails :
    idlePool.pages.entries = [("1000", ⟨7, false⟩)]
      ∧ idlePool.idleCount = 1
      ∧ (fetchInstagram idleState (some sampleUrl) resolverFailsEnv).2.1
          = ⟨500, .failure "Failed to fetch reel: resolver failed"⟩
      ∧ (fetchInstagram idleState (some sampleUrl) resolverFailsEnv).1.browserManager.pages.entries
          = [("1000", ⟨7, true⟩)]
      ∧ (fetchInstagram idleState (some sampleUrl) resolverFailsEnv).1.browserManager.idleCount
          = 0
      ∧ (fetchInstagram idleState (some sampleUrl) resolverFailsEnv).2.2
          = [.cacheGet sampleUrl, .getPage]
      ∧ (fetchInstagram idleState (some sampleUrl) contentFailsEnv).1.browserManager.idleCount
          = 0 := by
  decide

/-! ## The page pool -/

theorem JsMap.size_set_of_mem {V : Type} (m : JsMap V) (k : String) (v : V)
    (h : k ∈ m.entries.map Prod.fst) : (m.set k v).size = m.size := by
  unfold JsMap.set JsMap.size
  rw [dif_pos h]
  simp

theorem JsMap.size_set_le {V : Type} (m : JsMap V) (k : String) (v : V) :
    (m.set k v).size ≤ m.size + 1 := by
  unfold JsMap.set JsMap.size
  split <;> simp

theorem JsMap.key_mem_of_get {V : Type} (m : JsMap V) (k : String) (v : V)
    (h : m.get k = some v) : k ∈ m.entries.map Prod.fst :=
  List.mem_map.mpr ⟨(k, v), (m.get_eq_some_iff k v).1 h, rfl⟩

theorem initialize_ok (bm bm1 : BrowserManager) (launch : Except JsError Nat)
    (h : bm.initialize launch = .ok bm1) :
    bm1.pages = bm.pages ∧ bm1.maxPages = bm.maxPages ∧ bm1.browser ≠ none
      ∧ (bm.browser ≠ none → bm1 = bm) := by
  unfold BrowserManager.initialize at h
  cases hb : bm.browser with
  | some b =>
    rw [hb] at h
    have := Except.ok.inj h
    subst this
    exact ⟨rfl, rfl, by simp [hb], fun _ => rfl⟩
  | none =>
    rw [hb] at h
    cases hl : launch with
    | error e =>
      rw [hl] at h
      exact Except.noConfusion h
    | ok b =>
      rw [hl] at h
      have := Except.ok.inj h
      subst this
      exact ⟨rfl, rfl, by simp, fun hn => absurd rfl hn⟩

theorem poolInv_new : PoolInv BrowserManager.new :=
  ⟨rfl, by decide, fun _ => rfl⟩

theorem poolInv_getPage (bm : BrowserManager) (env : PageEnv) (h : PoolInv bm) :
    PoolInv (bm.getPage env).1 := by
  unfold BrowserManager.getPage
  cases hi : bm.initialize env.launch with
  | error e => exact h
  | ok bm1 =>
    obtain ⟨hp, hm, hb, _⟩ := initialize_ok bm bm1 env.launch hi
    have h1 : PoolInv bm1 := ⟨hm ▸ h.1, hp ▸ h.2.1, fun hn => absurd hn hb⟩
    simp only
    cases hf : bm1.pages.entries.find? (fun e => !e.2.inUse) with
    | some e =>
      obtain ⟨id, page⟩ := e
      have hmem : id ∈ bm1.pages.entries.map Prod.fst :=
        List.mem_map.mpr ⟨(id, page), List.mem_of_find?_eq_some hf, rfl⟩
      refine ⟨h1.1, ?_, fun hn => absurd hn hb⟩
      show (bm1.pages.set id _).size ≤ 5
      rw [JsMap.size_set_of_mem _ _ _ hmem]
      exact h1.2.1
    | none =>
      simp only
      by_cases hlt : bm1.pages.size < bm1.maxPages
      · rw [if_pos hlt]
        cases env.newPage with
        | error e => exact h1
        | ok page =>
          cases env.setupPage with
          | error e => exact h1
          | ok u =>
            refine ⟨h1.1, ?_, fun hn => absurd hn hb⟩
            show (bm1.pages.set _ _).size ≤ 5
            have := JsMap.size_set_le bm1.pages (toString env.now) ⟨page, true⟩
            have h5 := h1.1
            omega
      · rw [if_neg hlt]
        exact h1

theorem poolInv_releasePage (bm : BrowserManager) (id : String) (h : PoolInv bm) :
    PoolInv (bm.releasePage id) := by
  unfold BrowserManager.releasePage
  cases hg : bm.pages.get id with
  | none => exact h
  | some page =>
    refine ⟨h.1, ?_, ?_⟩
    · show (bm.pages.set id _).size ≤ 5
      rw [JsMap.size_set_of_mem _ _ _ (bm.pages.key_mem_of_get id page hg)]
      exact h.2.1
    · intro hn
      show (bm.pages.set id _).size = 0
      rw [JsMap.size_set_of_mem _ _ _ (bm.pages.key_mem_of_get id page hg)]
      exact h.2.2 hn

theorem poolInv_cleanup (bm : BrowserManager) (close : Except JsError Unit)
    (h : PoolInv bm) : PoolInv (bm.cleanup close).1 := by
  unfold BrowserManager.cleanup
  cases hb : bm.browser with
  | none => exact h
  | some b =>
    cases close with
    | error e => exact h
    | ok u => exact ⟨h.1, by simp [JsMap.clear, JsMap.empty, JsMap.size], fun _ => rfl⟩

theorem poolInv_run (ops : List PoolOp) (bm : BrowserManager) (h : PoolInv bm) :
    PoolInv (bm.run ops) := by
  induction ops generalizing bm with
  | nil => exact h
  | cons op ops ih =>
    apply ih
    cases op with
    | getPage env => exact poolInv_getPage bm env h
    | releasePage id => exact poolInv_releasePage bm id h
    | cleanup close => exact poolInv_cleanup bm close h

theorem getPage_of_all_inUse (bm : BrowserManager) (env : PageEnv) (hb : bm.browser ≠ none)
    (hsize : ¬ bm.pages.size < bm.maxPages)
    (hall : ∀ e ∈ bm.pages.entries, e.2.inUse = true) :
    bm.getPage env = (bm, .error (mkError "No pages available")) := by
  have hi : bm.initialize env.launch = .ok bm := by
    unfold BrowserManager.initialize
    cases hbb : bm.browser with
    | none => exact absurd hbb hb
    | some b => rfl
  have hf : bm.pages.entries.find? (fun e => !e.2.inUse) = none := by
    rw [List.find?_eq_none]
    intro e he
    simp [hall e he]
  unfold BrowserManager.getPage
  rw [hi]
  simp only [hf, if_neg hsize]

/-- When the calls do not overlap: in every pool state reached from a fresh
`BrowserManager` by a sequence of `getPage`, `releasePage` and `cleanup` calls, each run
to completion before the next is made, the pool holds at most 5 pages and at most 5 pages marked `inUse`; and when it holds 5 pages all marked
`inUse`, `getPage` throws `No pages available` and leaves the manager unchanged. -/
theorem pool_never_exceeds_maxPages (ops : List PoolOp) (env : PageEnv) :
    (BrowserManager.new.run ops).pages.size ≤ 5
      ∧ (BrowserManager.new.run ops).inUseCount ≤ 5
      ∧ ((BrowserManager.new.run ops).pages.size = 5 →
          (BrowserManager.new.run ops).inUseCount = 5 →
          (BrowserManager.new.run ops).getPage env
            = (BrowserManager.new.run ops, .error (mkError "No pages available"))) := by
  have hinv := poolInv_run ops BrowserManager.new poolInv_new
  refine ⟨hinv.2.1, ?_, ?_⟩
  · exact le_trans (List.countP_le_length _) hinv.2.1
  · intro hsize hcount
    apply getPage_of_all_inUse
    · intro hn
      have := hinv.2.2 hn
      omega
    · rw [hinv.1, hsize]
      exact lt_irrefl 5
    · have hlen : (BrowserManager.new.run ops).pages.entries.countP (fun e => e.2.inUse)
          = (BrowserManager.new.run ops).pages.entries.length := by
        have h1 : (BrowserManager.new.run ops).pages.entries.length = 5 := hsize
        rw [h1]
        exact hcount
      exact List.countP_eq_length.mp hlen

theorem pool_never_exceeds_maxPages_witness :
    ((BrowserManager.new.run fiveAcquisitions).pages.size = 5
        ∧ (BrowserManager.new.run fiveAcquisitions).inUseCount = 5)
      ∧ ((BrowserManager.new.run fiveAcquisitions).getPage (pageEnvAt 6 1005)).2
          = .error (mkError "No pages available") :=
  ⟨by decide,
    congrArg Prod.snd
      ((pool_never_exceeds_maxPages fiveAcquisitions (pageEnvAt 6 1005)).2.2
        (by decide) (by decide))⟩

theorem JsMap.get_set {V : Type} (m : JsMap V) (k k2 : String) (v : V) :
    (m.set k v).get k2 = if k2 = k then some v else m.get k2 := by
  apply Option.ext
  intro x
  simp only [Option.mem_def]
  rw [JsMap.get_eq_some_iff]
  by_cases hk : k ∈ m.entries.map Prod.fst
  · have hent : (m.set k v).entries
        = m.entries.map (fun e => if e.1 = k then (k, v) else e) := by
      unfold JsMap.set
      rw [dif_pos hk]
    rw [hent, List.mem_map]
    by_cases h2 : k2 = k
    · subst h2
      rw [if_pos rfl]
      constructor
      · rintro ⟨e, he, heq⟩
        by_cases h1 : e.1 = k2
        · rw [if_pos h1] at heq
          rw [← (Prod.mk.inj heq).2]
        · rw [if_neg h1] at heq
          exact absurd (congrArg Prod.fst heq) h1
      · intro hx
        obtain ⟨e, he, h1⟩ := List.mem_map.mp hk
        refine ⟨e, he, ?_⟩
        rw [if_pos h1, Option.some.inj hx]
    · rw [if_neg h2, JsMap.get_eq_some_iff]
      constructor
      · rintro ⟨e, he, heq⟩
        by_cases h1 : e.1 = k
        · rw [if_pos h1] at heq
          exact absurd (Prod.mk.inj heq).1.symm h2
        · rw [if_neg h1] at heq
          exact heq ▸ he
      · intro hx
        refine ⟨(k2, x), hx, ?_⟩
        rw [if_neg h2]
  · have hent : (m.set k v).entries = m.entries ++ [(k, v)] := by
      unfold JsMap.set
      rw [dif_neg hk]
    rw [hent, List.mem_append, List.mem_singleton]
    by_cases h2 : k2 = k
    · subst h2
      rw [if_pos rfl]
      constructor
      · rintro (h | h)
        · exact absurd (List.mem_map.mpr ⟨(k2, x), h, rfl⟩) hk
        · rw [(Prod.mk.inj h).2]
      · intro hx
        exact Or.inr (by rw [Option.some.inj hx])
    · rw [if_neg h2, JsMap.get_eq_some_iff]
      constructor
      · rintro (h | h)
        · exact h
        · exact absurd (Prod.mk.inj h).1 h2
      · intro hx
        exact Or.inl hx

theorem heldInUse_releasePage (bm : BrowserManager) (id : String) (held : List String)
    (h : HeldInUse bm held) :
    HeldInUse (bm.releasePage id) (held.filter (fun x => decide (x ≠ id))) := by
  intro x hx
  rw [List.mem_filter] at hx
  have hne : x ≠ id := by simpa using hx.2
  obtain ⟨page, hp⟩ := h x hx.1
  refine ⟨page, ?_⟩
  unfold BrowserManager.releasePage
  cases hg : bm.pages.get id with
  | none => exact hp
  | some e =>
    show (bm.pages.set id _).get x = _
    rw [JsMap.get_set, if_neg hne]
    exact hp

/-- When the clock reading of a `getPage()` call is not already an id of the pool, the id
returned is none of the ids still held, and the page returned is the page of no entry
stored under a held id; all held ids, the new one included, stay marked `inUse`. -/
theorem getPage_exclusive_of_fresh_clock (bm : BrowserManager) (env : PageEnv)
    (held : List String) (acquired : Acquired) (hinv : HeldInUse bm held)
    (hclock : toString env.now ∉ bm.pages.entries.map Prod.fst)
    (hget : (bm.getPage env).2 = .ok acquired) :
    acquired.id ∉ held
      ∧ HeldInUse (bm.getPage env).1 (acquired.id :: held)
      ∧ (bm.getPage env).1.pages.get acquired.id = some ⟨acquired.page, true⟩
      ∧ (∀ id ∈ held, (bm.getPage env).1.pages.get id = bm.pages.get id) := by
  unfold BrowserManager.getPage at hget ⊢
  cases hi : bm.initialize env.launch with
  | error e =>
    rw [hi] at hget
    exact Except.noConfusion hget
  | ok bm1 =>
    obtain ⟨hp, hm, hb, _⟩ := initialize_ok bm bm1 env.launch hi
    rw [hi] at hget
    simp only at hget ⊢
    have hinv1 : HeldInUse bm1 held := by
      intro x hx
      rw [hp]
      exact hinv x hx
    have key : ∀ (id : String) (page : Nat), id ∉ held →
        acquired = ⟨page, id⟩ →
        acquired.id ∉ held
          ∧ HeldInUse { bm1 with pages := bm1.pages.set id ⟨page, true⟩ } (acquired.id :: held)
          ∧ (bm1.pages.set id ⟨page, true⟩).get acquired.id = some ⟨acquired.page, true⟩
          ∧ (∀ x ∈ held, (bm1.pages.set id ⟨page, true⟩).get x = bm.pages.get x) := by
      intro id page hid hacq
      subst hacq
      refine ⟨hid, ?_, ?_, ?_⟩
      · intro x hx
        show ∃ pg, (bm1.pages.set id _).get x = _
        rw [JsMap.get_set]
        by_cases hxi : x = id
        · exact ⟨page, by rw [if_pos hxi]⟩
        · rw [if_neg hxi]
          rcases List.mem_cons.mp hx with h1 | h1
          · exact absurd h1 hxi
          · exact hinv1 x h1
      · rw [JsMap.get_set, if_pos rfl]
      · intro x hx
        have hxi : x ≠ id := fun h => hid (h ▸ hx)
        rw [JsMap.get_set, if_neg hxi, hp]
    cases hf : bm1.pages.entries.find? (fun e => !e.2.inUse) with
    | some e =>
      obtain ⟨id, page⟩ := e
      rw [hf] at hget
      simp only at hget ⊢
      have hidle : page.inUse = false := by
        have := List.find?_some hf
        simpa using this
      have hmem : bm1.pages.get id = some page :=
        (bm1.pages.get_eq_some_iff id page).2 (List.mem_of_find?_eq_some hf)
      have hid : id ∉ held := by
        intro hh
        obtain ⟨pg, hpg⟩ := hinv1 id hh
        rw [hmem] at hpg
        have := Option.some.inj hpg
        rw [this] at hidle
        exact Bool.noConfusion hidle
      exact key id page.page hid (Except.ok.inj hget).symm
    | none =>
      rw [hf] at hget
      simp only at hget ⊢
      by_cases hlt : bm1.pages.size < bm1.maxPages
      · rw [if_pos hlt] at hget ⊢
        cases hn : env.newPage with
        | error e =>
          rw [hn] at hget
          exact Except.noConfusion hget
        | ok page =>
          rw [hn] at hget
          cases hs : env.setupPage with
          | error e =>
            rw [hs] at hget
            exact Except.noConfusion hget
          | ok u =>
            rw [hs] at hget
            simp only at hget ⊢
            have hid : toString env.now ∉ held := by
              intro hh
              obtain ⟨pg, hpg⟩ := hinv (toString env.now) hh
              exact hclock (bm.pages.key_mem_of_get _ _ hpg)
            exact key (toString env.now) page hid (Except.ok.inj hget).symm
      · rw [if_neg hlt] at hget
        exact Except.noConfusion hget

theorem step_resume_last (bm : BrowserManager) (l : List GetPageCall) (c : GetPageCall)
    (k : Nat) (env : PageEnv) :
    (PoolSystem.mk bm (l ++ [c]) k).step (.resumeGetPage l.length env)
      = ⟨(bm.resumeGetPage env c).1, l ++ [(bm.resumeGetPage env c).2], k⟩ := by
  simp [PoolSystem.step]

theorem step_call_of_closed (bm : BrowserManager) (l : List GetPageCall) (k : Nat)
    (hb : bm.browser = none) :
    (PoolSystem.mk bm l k).step .callGetPage = ⟨bm, l ++ [.awaitingLaunch], k⟩ := by
  simp [PoolSystem.step, hb]

theorem step_call_of_started (bm : BrowserManager) (l : List GetPageCall) (k b : Nat)
    (hb : bm.browser = some b) :
    (PoolSystem.mk bm l k).step .callGetPage = ⟨bm, l ++ [.awaitingInitialize], k⟩ := by
  simp [PoolSystem.step, hb]

theorem resume_returned (bm : BrowserManager) (env : PageEnv)
    (result : Except JsError Acquired) :
    bm.resumeGetPage env (.returned result) = (bm, .returned result) := rfl

/-- A `getPage()` call that no other call overlaps (it is made and resumes from each of
its four `await`s before anything else happens) does what `BrowserManager.getPage` does
in one piece. -/
theorem getPage_without_overlap (sys : PoolSystem) (env : PageEnv) :
    sys.run [.callGetPage, .resumeGetPage sys.calls.length env,
        .resumeGetPage sys.calls.length env, .resumeGetPage sys.calls.length env,
        .resumeGetPage sys.calls.length env]
      = ⟨(sys.bm.getPage env).1, sys.calls ++ [.returned (sys.bm.getPage env).2],
          sys.closing⟩ := by
  obtain ⟨bm, calls, closing⟩ := sys
  simp only [PoolSystem.run, List.foldl]
  unfold BrowserManager.getPage BrowserManager.initialize
  cases hb : bm.browser with
  | none =>
    rw [step_call_of_closed bm calls closing hb, step_resume_last]
    cases hl : env.launch with
    | error e =>
      simp only [BrowserManager.resumeGetPage, hl]
      rw [step_resume_last, resume_returned, step_resume_last, resume_returned,
        step_resume_last, resume_returned]
    | ok b =>
      simp only [BrowserManager.resumeGetPage, hl]
      rw [step_resume_last]
      cases hf : bm.pages.entries.find? (fun e => !e.2.inUse) with
      | some e =>
        obtain ⟨id, page⟩ := e
        simp only [BrowserManager.resumeGetPage, hf]
        rw [step_resume_last, resume_returned, step_resume_last, resume_returned]
      | none =>
        by_cases hlt : bm.pages.size < bm.maxPages
        · simp only [BrowserManager.resumeGetPage, hf, hlt, if_true]
          rw [step_resume_last]
          cases hn : env.newPage with
          | error e =>
            simp only [BrowserManager.resumeGetPage, hn]
            rw [step_resume_last, resume_returned]
          | ok page =>
            simp only [BrowserManager.resumeGetPage, hn]
            rw [step_resume_last]
            cases hs : env.setupPage with
            | error e => simp only [BrowserManager.resumeGetPage, hs]
            | ok u => simp only [BrowserManager.resumeGetPage, hs]
        · simp only [BrowserManager.resumeGetPage, hf, hlt, if_false]
          rw [step_resume_last, resume_returned, step_resume_last, resume_returned]
  | some b0 =>
    rw [step_call_of_started bm calls closing b0 hb, step_resume_last]
    cases hf : bm.pages.entries.find? (fun e => !e.2.inUse) with
    | some e =>
      obtain ⟨id, page⟩ := e
      simp only [BrowserManager.resumeGetPage, hf]
      rw [step_resume_last, resume_returned, step_resume_last, resume_returned,
        step_resume_last, resume_returned]
    | none =>
      by_cases hlt : bm.pages.size < bm.maxPages
      · simp only [BrowserManager.resumeGetPage, hf, hlt, if_true, hb]
        rw [step_resume_last]
        cases hn : env.newPage with
        | error e =>
          simp only [BrowserManager.resumeGetPage, hn]
          rw [step_resume_last, resume_returned, step_resume_last, resume_returned]
        | ok page =>
          simp only [BrowserManager.resumeGetPage, hn]
          rw [step_resume_last]
          cases hs : env.setupPage with
          | error e =>
            simp only [BrowserManager.resumeGetPage, hs]
            rw [step_resume_last, resume_returned]
          | ok u =>
            simp only [BrowserManager.resumeGetPage, hs]
            rw [step_resume_last, resume_returned]
            simp only [hb]
      · simp only [BrowserManager.resumeGetPage, hf, hlt, if_false]
        rw [step_resume_last, resume_returned, step_resume_last, resume_returned,
          step_resume_last, resume_returned]

set_option maxRecDepth 100000 in
/-- Claim C2, the code at a failing input: six `getPage()` calls are made on a fresh pool
before any of them resumes. Each passes the test `this.pages.size < this.maxPages` (line
144) while the pool is still empty, and each then stores its page (line 148): the pool
ends with six pages, all marked `inUse`, although `maxPages` is 5. After the first three
rounds of resumptions the pool is still empty and every call is suspended at
`setupPage`. -/
theorem overlapping_getPage_exceeds_maxPages :
    (PoolSystem.fresh.run sixOverlappingCalls).bm.maxPages = 5
      ∧ (PoolSystem.fresh.run sixOverlappingCalls).bm.pages.size = 6
      ∧ (PoolSystem.fresh.run sixOverlappingCalls).bm.inUseCount = 6
      ∧ (PoolSystem.fresh.run sixOverlappingCalls).calls
          = [.returned (.ok ⟨1, "1000"⟩), .returned (.ok ⟨2, "1001"⟩),
              .returned (.ok ⟨3, "1002"⟩), .returned (.ok ⟨4, "1003"⟩),
              .returned (.ok ⟨5, "1004"⟩), .returned (.ok ⟨6, "1005"⟩)]
      ∧ (PoolSystem.fresh.run (List.replicate 6 .callGetPage
            ++ resumeSixCalls ++ resumeSixCalls ++ resumeSixCalls)).bm.pages.size = 0
      ∧ (PoolSystem.fresh.run (List.replicate 6 .callGetPage
            ++ resumeSixCalls ++ resumeSixCalls ++ resumeSixCalls)).calls
          = [.awaitingSetupPage 1, .awaitingSetupPage 2, .awaitingSetupPage 3,
              .awaitingSetupPage 4, .awaitingSetupPage 5, .awaitingSetupPage 6] := by
  decide

/-- Claim C3, the code at a failing input: two `getPage()` calls on a fresh pool read the
same clock value `1000`, with no release in between. Both return the id `"1000"`; the
second `pages.set` overwrites the entry of the first, so the pool holds the single entry
of page `8`. After the first caller releases the id it was given, a third `getPage()`
returns page `8`, which the second caller still holds. -/
theorem same_clock_gives_same_id :
    firstAcquisition.2 = .ok ⟨7, "1000"⟩
      ∧ secondAcquisition.2 = .ok ⟨8, "1000"⟩
      ∧ secondAcquisition.1.pages.entries = [("1000", ⟨8, true⟩)]
      ∧ thirdAcquisition.2 = .ok ⟨8, "1000"⟩ := by
  decide

/-! ## Shutdown of the pool -/

/-- Claim C7, counterexample: a pool is started by a first `getPage()`, then `cleanup()`
runs and closes the browser; the next `getPage()` does not fail: it returns the new page
`8` under the id `"2000"`, and the browser is started again. -/
theorem getPage_succeeds_after_cleanup :
    firstAcquisition.1.browser = some 1
      ∧ closedPool.browser = none
      ∧ closedPool.pages.entries = []
      ∧ (closedPool.getPage (pageEnvAt 8 2000)).2 = .ok ⟨8, "2000"⟩
      ∧ (closedPool.getPage (pageEnvAt 8 2000)).1.browser = some 1 := by
  decide

theorem cleanup_of_started (bm : BrowserManager) (b : Nat) (u : Unit)
    (hb : bm.browser = some b) :
    bm.cleanup (.ok u) = ({ bm with browser := none, pages := JsMap.empty }, .ok ()) := by
  unfold BrowserManager.cleanup
  rw [hb]
  rfl

/-- Claim C7, amended: after `cleanup()` has run (the browser closed without error) on a
pool whose browser was started, the browser is `null` and the pool holds no pages. A later
`getPage()` starts the browser again: if `puppeteer.launch` rejects, it throws that error
and leaves the pool closed and empty; if launch, `newPage` and `setupPage` succeed, it
returns the new page under the id `Date.now().toString()` and the pool holds that page
alone; and every error it throws is the error of one of these three calls. -/
theorem cleanup_then_getPage_relaunches (bm : BrowserManager) (b : Nat) (env : PageEnv)
    (hb : bm.browser = some b) (hmax : 0 < bm.maxPages) :
    (bm.cleanup (.ok ())).2 = .ok ()
      ∧ (bm.cleanup (.ok ())).1.browser = none
      ∧ (bm.cleanup (.ok ())).1.pages.entries = []
      ∧ (∀ e, env.launch = .error e →
          (bm.cleanup (.ok ())).1.getPage env = ((bm.cleanup (.ok ())).1, .error e))
      ∧ (∀ b2 p u, env.launch = .ok b2 → env.newPage = .ok p → env.setupPage = .ok u →
          ((bm.cleanup (.ok ())).1.getPage env).2 = .ok ⟨p, toString env.now⟩
            ∧ ((bm.cleanup (.ok ())).1.getPage env).1.browser = some b2
            ∧ ((bm.cleanup (.ok ())).1.getPage env).1.pages.entries
                = [(toString env.now, ⟨p, true⟩)])
      ∧ (∀ e, ((bm.cleanup (.ok ())).1.getPage env).2 = .error e →
          env.launch = .error e ∨ env.newPage = .error e ∨ env.setupPage = .error e) := by
  rw [cleanup_of_started bm b () hb]
  refine ⟨rfl, rfl, rfl, ?_, ?_, ?_⟩
  · intro e he
    simp [BrowserManager.getPage, BrowserManager.initialize, he]
  · intro b2 p u hl hn hs
    simp [BrowserManager.getPage, BrowserManager.initialize, hl, hn, hs, JsMap.empty,
      JsMap.size, JsMap.set, hmax]
  · intro e he
    cases hl : env.launch with
    | error e1 =>
      simp [BrowserManager.getPage, BrowserManager.initialize, hl] at he
      exact Or.inl (by rw [he])
    | ok b2 =>
      cases hn : env.newPage with
      | error e1 =>
        simp [BrowserManager.getPage, BrowserManager.initialize, hl, hn, JsMap.empty,
          JsMap.size, hmax] at he
        exact Or.inr (Or.inl (by rw [he]))
      | ok p =>
        cases hs : env.setupPage with
        | error e1 =>
          simp [BrowserManager.getPage, BrowserManager.initialize, hl, hn, hs, JsMap.empty,
            JsMap.size, hmax] at he
          exact Or.inr (Or.inr (by rw [he]))
        | ok u =>
          simp [BrowserManager.getPage, BrowserManager.initialize, hl, hn, hs, JsMap.empty,
            JsMap.size, hmax] at he

theorem cleanup_then_getPage_relaunches_witness :
    (firstAcquisition.1.browser = some 1 ∧ 0 < firstAcquisition.1.maxPages)
      ∧ (firstAcquisition.1.cleanup (.ok ())).1.browser = none
      ∧ (firstAcquisition.1.cleanup (.ok ())).1.pages.entries = [] :=
  ⟨by decide,
    (cleanup_then_getPage_relaunches firstAcquisition.1 1 (pageEnvAt 8 2000)
      (by decide) (by decide)).2.1,
    (cleanup_then_getPage_relaunches firstAcquisition.1 1 (pageEnvAt 8 2000)
      (by decide) (by decide)).2.2.1⟩

/-! ## Media-type detection (`post.js`) -/

/-- Claim C11: `detectMediaType`, with the outcome of the `HEAD` probe as an input. For a
missing or empty URL it returns `null`. For every other URL it returns `video` if the URL
contains `.mp4`, else `image` if the URL contains `.jpg`, `.jpeg` or `.png`, whatever the
probe. Otherwise, if the probe succeeds with a content type, it returns `video` when the
content type contains `video` and `image` when it does not; if the probe fails (the
request rejects, or the answer carries no content type, which throws inside the `try`),
it returns `video` when the URL contains `video` and `image` when it does not. For a
non-empty URL the result is always `video` or `image`. -/
theorem detectMediaType_cases (url : Option String) (probe : Except JsError (Option String)) :
    ((url = none ∨ url = some "") → detectMediaType url probe = none)
      ∧ (∀ u, url = some u → u ≠ "" →
          (includes u ".mp4" = true → detectMediaType url probe = some "video")
          ∧ (includes u ".mp4" = false →
              (includes u ".jpg" = true ∨ includes u ".jpeg" = true
                ∨ includes u ".png" = true) →
              detectMediaType url probe = some "image")
          ∧ (includes u ".mp4" = false → includes u ".jpg" = false →
              includes u ".jpeg" = false → includes u ".png" = false →
              (∀ contentType, probe = .ok (some contentType) →
                detectMediaType url probe
                  = some (if includes contentType "video" then "video" else "image"))
              ∧ ((probe = .ok none ∨ ∃ e, probe = .error e) →
                detectMediaType url probe
                  = some (if includes u "video" then "video" else "image")))
          ∧ (detectMediaType url probe = some "video"
              ∨ detectMediaType url probe = some "image")) := by
  constructor
  · rintro (h | h) <;> simp [h, detectMediaType]
  · intro u hu hne
    subst hu
    refine ⟨?_, ?_, ?_, ?_⟩
    · intro h1
      simp [detectMediaType, hne, h1]
    · intro h1 h2
      rcases h2 with h | h | h <;> simp [detectMediaType, hne, h1, h]
    · intro h1 h2 h3 h4
      constructor
      · intro ct hct
        by_cases hv : includes ct "video" = true
        · simp [detectMediaType, hne, h1, h2, h3, h4, hct, hv]
        · simp [detectMediaType, hne, h1, h2, h3, h4, hct, hv]
      · rintro (h | ⟨e, h⟩) <;> simp [detectMediaType, hne, h1, h2, h3, h4, h]
    · simp only [detectMediaType, hne, if_false]
      split
      · exact Or.inl rfl
      · split
        · exact Or.inr rfl
        · split
          · split
            · exact Or.inl rfl
            · split <;> exact Or.inr rfl
          · split
            · exact Or.inl rfl
            · exact Or.inr rfl

theorem detectMediaType_cases_witness :
    detectMediaType (some "https://x/clip/video/1") (.error (mkError "timeout of 5000ms"))
        = some "video"
      ∧ detectMediaType (some "https://x/clip/1") (.ok (some "video/webm")) = some "video" :=
  ⟨by
      have h := ((detectMediaType_cases (some "https://x/clip/video/1")
        (.error (mkError "timeout of 5000ms"))).2 "https://x/clip/video/1" rfl
          (by decide)).2.2.1 (by decide) (by decide) (by decide) (by decide)
      exact (h.2 (Or.inr ⟨_, rfl⟩)).trans (by decide),
    by
      have h := ((detectMediaType_cases (some "https://x/clip/1")
        (.ok (some "video/webm"))).2 "https://x/clip/1" rfl
          (by decide)).2.2.1 (by decide) (by decide) (by decide) (by decide)
      exact (h.1 "video/webm" rfl).trans (by decide)⟩

/-! ## The filename of the `/download` route (`post.js`) -/

theorem replaceNonAlnum_chars (filename : String) (c : Char)
    (hc : c ∈ (replaceNonAlnum filename).data) : isAsciiAlnum c = true ∨ c = '-' := by
  unfold replaceNonAlnum at hc
  simp only [List.mem_flatMap] at hc
  obtain ⟨x, _, hx⟩ := hc
  by_cases ha : isAsciiAlnum x = true
  · rw [if_pos ha, List.mem_singleton] at hx
    exact Or.inl (hx ▸ ha)
  · rw [if_neg ha] at hx
    exact Or.inr (List.eq_of_mem_replicate hx)

theorem sum_utf16Length_replicate (n : Nat) :
    ((List.replicate n '-').map utf16Length).sum = n := by
  induction n with
  | zero => rfl
  | succ n ih =>
    rw [List.replicate_succ, List.map_cons, List.sum_cons, ih]
    have : utf16Length '-' = 1 := by decide
    omega

theorem jsLength_replaceNonAlnum (filename : String) :
    jsLength (replaceNonAlnum filename) = jsLength filename := by
  unfold jsLength replaceNonAlnum
  simp only
  induction filename.data with
  | nil => rfl
  | cons c cs ih =>
    rw [List.flatMap_cons, List.map_append, List.sum_append, ih, List.map_cons, List.sum_cons]
    by_cases ha : isAsciiAlnum c = true
    · rw [if_pos ha]
      simp
    · rw [if_neg ha, sum_utf16Length_replicate]

theorem flatMap_replace_of_bmp (l : List Char) (hbmp : ∀ c ∈ l, c.toNat < 65536) :
    l.flatMap (fun c => if isAsciiAlnum c then [c] else List.replicate (utf16Length c) '-')
      = l.map (fun c => if isAsciiAlnum c then c else '-') := by
  induction l with
  | nil => rfl
  | cons c cs ih =>
    rw [List.flatMap_cons, List.map_cons, ih (fun x hx => hbmp x (List.mem_cons_of_mem _ hx))]
    have hc : utf16Length c = 1 := by
      unfold utf16Length
      rw [if_pos (hbmp c (List.mem_cons_self _ _))]
    by_cases ha : isAsciiAlnum c = true
    · rw [if_pos ha, if_pos ha]
      rfl
    · rw [if_neg ha, if_neg ha, hc]
      rfl

theorem replaceNonAlnum_of_bmp (filename : String)
    (hbmp : ∀ c ∈ filename.data, c.toNat < 65536) :
    (replaceNonAlnum filename).data
      = filename.data.map (fun c => if isAsciiAlnum c then c else '-') :=
  flatMap_replace_of_bmp filename.data hbmp

theorem not_special_of_alnum_or_dash (c : Char) (h : isAsciiAlnum c = true ∨ c = '-') :
    c ≠ Char.ofNat 34 ∧ c ≠ Char.ofNat 10 ∧ c ≠ Char.ofNat 13 ∧ c ≠ Char.ofNat 47
      ∧ c ≠ Char.ofNat 92 := by
  refine ⟨?_, ?_, ?_, ?_, ?_⟩ <;>
  · intro hc
    subst hc
    revert h
    decide

/-- Claim C12, counterexample: for the requested name `my file` and a resource reporting
`image/png`, the filename in `Content-Disposition` is `savereelify.com - my-file.png`,
not `my-file.png`; and for a resource reporting the content type `constructor` the
extension is not `.jpg` but the text of the function `Object.prototype.constructor`. -/
theorem download_filename_prefix_and_inherited_extension :
    (download (some "https://x/a") (some "my file") pngDownloadEnv).headers
        = [("Content-Disposition", "attachment; filename=\"savereelify.com - my-file.png\""),
            ("Content-Type", "image/png"), ("Content-Length", "1000")]
      ∧ getFileExtension (some "constructor") = .inherited "constructor"
      ∧ (download (some "https://x/a") (some "my file") constructorDownloadEnv).headers.head?
        = some ("Content-Disposition",
            "attachment; filename=\"savereelify.com - my-filefunction Object() \x7b [native code] \x7d\"") := by
  decide

/-- Claim C12, amended: in the `/download` route of `post.js`, for every requested
filename and every remote content type, the value of `Content-Disposition` is
`attachment; filename="savereelify.com - ` followed by the sanitized name, the extension
and `"`. The sanitized name is the requested name with every character of `A-Z a-z 0-9`
retained in place and every other UTF-16 code unit replaced by `-`: it has the length of
the requested name, holds only alphanumeric characters and `-` (no quote, line break,
slash or backslash), and for a name within the Basic Multilingual Plane it is the name
mapped character by character. The extension is `.mp4` for `video/mp4`, `.jpg` for
`image/jpeg` and `image/jpg`, `.png` for `image/png`, and `.jpg` for every other content
type that is not the name of a property inherited from `Object.prototype`. -/
theorem download_filename_sanitized (url filename contentType : String)
    (contentLength : Option String) (env : DownloadEnv)
    (hurl : url ≠ "") (hname : filename ≠ "") (hisURL : env.isURL = true)
    (hremote : env.remote = .ok ⟨some contentType, contentLength⟩) :
    (download (some url) (some filename) env).status = 200
      ∧ (download (some url) (some filename) env).headers.head?
          = some ("Content-Disposition",
              "attachment; filename=\"savereelify.com - "
                ++ (replaceNonAlnum filename
                    ++ (getFileExtension (some contentType)).text env.inheritedText)
                ++ "\"")
      ∧ jsLength (replaceNonAlnum filename) = jsLength filename
      ∧ (∀ c ∈ (replaceNonAlnum filename).data,
          (isAsciiAlnum c = true ∨ c = '-')
            ∧ c ≠ Char.ofNat 34 ∧ c ≠ Char.ofNat 10 ∧ c ≠ Char.ofNat 13
            ∧ c ≠ Char.ofNat 47 ∧ c ≠ Char.ofNat 92)
      ∧ ((∀ c ∈ filename.data, c.toNat < 65536) →
          (replaceNonAlnum filename).data
            = filename.data.map (fun c => if isAsciiAlnum c then c else '-'))
      ∧ (contentType = "video/mp4" → getFileExtension (some contentType) = .str ".mp4")
      ∧ (contentType = "image/jpeg" ∨ contentType = "image/jpg" →
          getFileExtension (some contentType) = .str ".jpg")
      ∧ (contentType = "image/png" → getFileExtension (some contentType) = .str ".png")
      ∧ (contentType ∉ objectPrototypeKeys → contentType ≠ "video/mp4" →
          contentType ≠ "image/png" → getFileExtension (some contentType) = .str ".jpg") := by
  refine ⟨?_, ?_, jsLength_replaceNonAlnum filename, ?_, replaceNonAlnum_of_bmp filename,
    ?_, ?_, ?_, ?_⟩
  · simp [download, isFalsy, hurl, hname, hisURL, hremote]
  · simp [download, isFalsy, hurl, hname, hisURL, hremote, contentDisposition,
      sanitizedFilename]
  · intro c hc
    have h := replaceNonAlnum_chars filename c hc
    exact ⟨h, not_special_of_alnum_or_dash c h⟩
  · intro h
    subst h
    rfl
  · rintro (h | h) <;> subst h <;> rfl
  · intro h
    subst h
    rfl
  · intro hkeys h1 h2
    unfold getFileExtension
    simp only [h1, h2, hkeys, if_false]
    split <;> [rfl; (split <;> rfl)]

theorem download_filename_sanitized_witness :
    ("https://x/a" ≠ "" ∧ "my file" ≠ "" ∧ pngDownloadEnv.isURL = true)
      ∧ (download (some "https://x/a") (some "my file") pngDownloadEnv).status = 200
      ∧ getFileExtension (some "image/png") = .str ".png" :=
  ⟨by decide,
    (download_filename_sanitized "https://x/a" "my file" "image/png" (some "1000")
      pngDownloadEnv (by decide) (by decide) rfl rfl).1,
    (download_filename_sanitized "https://x/a" "my file" "image/png" (some "1000")
      pngDownloadEnv (by decide) (by decide) rfl rfl).2.2.2.2.2.2.2.1 rfl⟩

/-! ## What a failing request tells the client (`server.js`) -/

/-- Claim C13, counterexample: two runs of the handler on the same state and URL fail with
resolver errors that differ only in their message; both answer with status 500, but the
bodies differ, each carrying the message of its error. -/
theorem failure_body_carries_error_message :
    (fetchInstagram idleState (some sampleUrl) resolverFailsEnv).2.1
        = ⟨500, .failure "Failed to fetch reel: resolver failed"⟩
      ∧ (fetchInstagram idleState (some sampleUrl) resolverFailsOtherEnv).2.1
        = ⟨500, .failure "Failed to fetch reel: connect ECONNREFUSED 10.0.0.5:443"⟩
      ∧ (fetchInstagram idleState (some sampleUrl) resolverFailsEnv).2.1
        ≠ (fetchInstagram idleState (some sampleUrl) resolverFailsOtherEnv).2.1 := by
  decide

theorem fetchFailure_eq_iff (e1 e2 : JsError) :
    fetchFailure e1 = fetchFailure e2 ↔ e1.message = e2.message := by
  constructor
  · intro h
    unfold fetchFailure at h
    simp only [Response.mk.injEq, Body.failure.injEq, true_and] at h
    have hd := congrArg String.data h
    rw [String.data_append, String.data_append] at hd
    exact String.ext (List.append_cancel_left hd)
  · intro h
    unfold fetchFailure
    rw [h]

theorem fetchFailure_ne_errorHandler (e : JsError) : fetchFailure e ≠ errorHandler e := by
  intro h
  unfold fetchFailure errorHandler at h
  split at h
  · have hs : (500 : Nat) = 408 := congrArg Response.status h
    omega
  · split at h
    · have hs : (500 : Nat) = 400 := congrArg Response.status h
      omega
    · simp only [Response.mk.injEq, Body.failure.injEq, true_and] at h
      have hd := congrArg String.data h
      rw [String.data_append] at hd
      have hf : ("Failed to fetch reel: ".data ++ e.message.data).head? = some 'F' := by
        simp
      rw [hd] at hf
      simp at hf

theorem fetchAfterCacheMiss_of_tryBlockError (st : ServerState) (url : String)
    (env : FetchEnv) :
    (∀ e, tryBlockError st env = some e →
        (fetchAfterCacheMiss st url env).2.1 = fetchFailure e)
      ∧ (tryBlockError st env = none → (fetchAfterCacheMiss st url env).2.1.status = 200) := by
  unfold tryBlockError
  cases hg : st.browserManager.getPage env.pageEnv with
  | mk bm1 r =>
    cases r with
    | error e0 =>
      constructor
      · intro e he
        simp only [Option.some.injEq] at he
        subst he
        simp [fetchAfterCacheMiss, hg]
      · intro he
        simp at he
    | ok acquired =>
      cases hc : env.content with
      | error e1 =>
        cases hr : raceTimeout env.resolver with
        | error e2 =>
          constructor
          · intro e he
            simp only [Option.some.injEq] at he
            subst he
            simp [fetchAfterCacheMiss, hg, hc, hr, promiseAll]
          · intro he
            simp at he
        | ok ig =>
          constructor
          · intro e he
            simp only [Option.some.injEq] at he
            subst he
            simp [fetchAfterCacheMiss, hg, hc, hr, promiseAll]
          · intro he
            simp at he
      | ok content =>
        cases hr : raceTimeout env.resolver with
        | error e2 =>
          constructor
          · intro e he
            simp only [Option.some.injEq] at he
            subst he
            simp [fetchAfterCacheMiss, hg, hc, hr, promiseAll]
          · intro he
            simp at he
        | ok ig =>
          by_cases hn : noUrlList ig = true
          · constructor
            · intro e he
              simp only [hn, if_true, Option.some.injEq] at he
              subst he
              simp [fetchAfterCacheMiss, hg, hc, hr, promiseAll, hn]
            · intro he
              simp [hn] at he
          · constructor
            · intro e he
              simp [hn] at he
            · intro _
              simp [fetchAfterCacheMiss, hg, hc, hr, promiseAll, hn]

/-- Claim C13, amended: take two runs of the `/api/fetch-instagram` handler, each on a
valid URL with a cache miss. A run whose `try` block exits with the error `e` (thrown by
`getPage`, by the page fetch, by the resolver or its timeout, or by the check of the
candidate list) answers with status 500 and the body
`{ success: false, message: 'Failed to fetch reel: ' + e.message }`, which is not the
answer of the middleware `errorHandler`; a run whose `try` block throws nothing answers
with status 200. Two failing runs get the same status, and the same response exactly when
the messages of their errors are equal. -/
theorem failure_response_shows_message (st1 st2 : ServerState) (url1 url2 : String)
    (env1 env2 : FetchEnv)
    (hne1 : url1 ≠ "") (hv1 : validateInstagramUrl url1 = true)
    (hne2 : url2 ≠ "") (hv2 : validateInstagramUrl url2 = true)
    (hmiss1 : cacheLookup st1.cache url1 env1.now = none)
    (hmiss2 : cacheLookup st2.cache url2 env2.now = none) :
    (∀ e, tryBlockError st1 env1 = some e →
        (fetchInstagram st1 (some url1) env1).2.1
            = ⟨500, .failure ("Failed to fetch reel: " ++ e.message)⟩
          ∧ (fetchInstagram st1 (some url1) env1).2.1.body.success = false
          ∧ (fetchInstagram st1 (some url1) env1).2.1 ≠ errorHandler e)
      ∧ (tryBlockError st1 env1 = none →
          (fetchInstagram st1 (some url1) env1).2.1.status = 200)
      ∧ (∀ e1 e2, tryBlockError st1 env1 = some e1 → tryBlockError st2 env2 = some e2 →
          (fetchInstagram st1 (some url1) env1).2.1.status
              = (fetchInstagram st2 (some url2) env2).2.1.status
            ∧ ((fetchInstagram st1 (some url1) env1).2.1
                  = (fetchInstagram st2 (some url2) env2).2.1
                ↔ e1.message = e2.message)) := by
  have h1 : (fetchInstagram st1 (some url1) env1).2.1
      = (fetchAfterCacheMiss st1 url1 env1).2.1 := by
    rw [fetchInstagram_valid st1 url1 env1 hne1 hv1, hmiss1]
  have h2 : (fetchInstagram st2 (some url2) env2).2.1
      = (fetchAfterCacheMiss st2 url2 env2).2.1 := by
    rw [fetchInstagram_valid st2 url2 env2 hne2 hv2, hmiss2]
  rw [h1, h2]
  refine ⟨?_, (fetchAfterCacheMiss_of_tryBlockError st1 url1 env1).2, ?_⟩
  · intro e he
    rw [(fetchAfterCacheMiss_of_tryBlockError st1 url1 env1).1 e he]
    exact ⟨rfl, rfl, fetchFailure_ne_errorHandler e⟩
  · intro e1 e2 he1 he2
    rw [(fetchAfterCacheMiss_of_tryBlockError st1 url1 env1).1 e1 he1,
      (fetchAfterCacheMiss_of_tryBlockError st2 url2 env2).1 e2 he2]
    exact ⟨rfl, fetchFailure_eq_iff e1 e2⟩

theorem failure_response_shows_message_witness :
    (sampleUrl ≠ "" ∧ validateInstagramUrl sampleUrl = true
        ∧ cacheLookup idleState.cache sampleUrl resolverFailsEnv.now = none
        ∧ tryBlockError idleState resolverFailsEnv = some (mkError "resolver failed")
        ∧ tryBlockError idleState resolverFailsOtherEnv
            = some (mkError "connect ECONNREFUSED 10.0.0.5:443"))
      ∧ ((fetchInstagram idleState (some sampleUrl) resolverFailsEnv).2.1
            = (fetchInstagram idleState (some sampleUrl) resolverFailsOtherEnv).2.1
          ↔ (mkError "resolver failed").message
            = (mkError "connect ECONNREFUSED 10.0.0.5:443").message) :=
  ⟨by decide,
    ((failure_response_shows_message idleState idleState sampleUrl sampleUrl
      resolverFailsEnv resolverFailsOtherEnv (by decide) (by decide) (by decide) (by decide)
      (by decide) (by decide)).2.2 (mkError "resolver failed")
        (mkError "connect ECONNREFUSED 10.0.0.5:443") (by decide) (by decide)).2⟩

end SaveReelify
